import Mathlib

/-!
Shallow embedding of the audio-duplicates core (fingerprint comparator,
inverted index with duplicate-group discovery, audio preprocessor and the
chromaprint wrapper policies), translated from the C++ sources in src/.

Conventions of the embedding:
* 32-bit sub-fingerprint values are naturals; wherever the machine type
  bounds the value, the code applies an explicit `% 2 ^ 32` (resp.
  `% 2 ^ 16` for the `& 0xFFFF` hash extraction).
* `double` arithmetic of the source is modelled exactly over `ℚ`, except
  for the transcendental Gaussian weights / logarithms, which are `ℝ`.
* `std::vector` is `List`, iteration order preserved; `unordered_set`
  becomes `Finset`; functions that mutate accumulator state become folds.
-/

namespace AudioDuplicates

open scoped Classical

/-! ## Fingerprint comparator (fingerprint_comparator.cpp) -/

/-- Fuel-indexed binary popcount; `popcountAux 32 n` is POPCOUNT of a
32-bit value (32 iterations of the fallback loop in the source suffice). -/
def popcountAux : ℕ → ℕ → ℕ
  | 0, _ => 0
  | f + 1, n => n % 2 + popcountAux f (n / 2)

/-- POPCOUNT of a 32-bit value. -/
def popcount32 (n : ℕ) : ℕ := popcountAux 32 n

/-- Modulus of the `uint32_t` type. -/
def u32Mod : ℕ := 4294967296

/-- Number of differing bits of two 32-bit sub-fingerprints:
`POPCOUNT(a ^ b)` where the xor is computed in `uint32_t`. -/
def bit_errors (a b : ℕ) : ℕ := popcount32 ((a ^^^ b) % u32Mod)

/-- FingerprintComparator::count_matching_bits: `32 - POPCOUNT(a ^ b)`. -/
def count_matching_bits (a b : ℕ) : ℕ := 32 - bit_errors a b

/-- Start of the overlap range at offset `k`: `max(0, -offset)`. -/
def overlap_lo (k : ℤ) : ℤ := max 0 (-k)

/-- End of the overlap range at offset `k`: `min(|fp1|, |fp2| - offset)`. -/
def overlap_hi (n1 n2 : ℕ) (k : ℤ) : ℤ := min (n1 : ℤ) ((n2 : ℤ) - k)

/-- Number of sub-fingerprint positions compared at offset `k`
(the trip count of the loops in `calculate_similarity_at_offset` and
`calculate_bit_error_rate`, and the `matched_segments` value of
`compare`). -/
def overlap_count (n1 n2 : ℕ) (k : ℤ) : ℕ :=
  (overlap_hi n1 n2 k - overlap_lo k).toNat

/-- Indexing into a fingerprint's data vector (indices produced by the
embedding are always in range, so the default is irrelevant). -/
def fpGet (l : List ℕ) (i : ℤ) : ℕ := l.getD i.toNat 0

/-- Sum of `f fp1[i] fp2[i+k]` over the overlap range at offset `k`. -/
def aligned_sum (f : ℕ → ℕ → ℕ) (d1 d2 : List ℕ) (k : ℤ) : ℕ :=
  ((List.range (overlap_count d1.length d2.length k)).map
    (fun t : ℕ => f (fpGet d1 (overlap_lo k + (t : ℤ)))
      (fpGet d2 (overlap_lo k + (t : ℤ) + k)))).sum

/-- FingerprintComparator::calculate_similarity_at_offset. -/
def calculate_similarity_at_offset (d1 d2 : List ℕ) (k : ℤ) : ℚ :=
  if overlap_count d1.length d2.length k = 0 then 0
  else (aligned_sum count_matching_bits d1 d2 k : ℚ) /
    (32 * (overlap_count d1.length d2.length k : ℚ))

/-- FingerprintComparator::calculate_bit_error_rate. -/
def calculate_bit_error_rate (d1 d2 : List ℕ) (k : ℤ) : ℚ :=
  if overlap_count d1.length d2.length k = 0 then 1
  else (aligned_sum bit_errors d1 d2 k : ℚ) /
    (32 * (overlap_count d1.length d2.length k : ℚ))

/-- FingerprintComparator::extract_hash_subset: low 16 bits of every
sub-fingerprint (`value & 0xFFFF`). -/
def extract_hash_subset (d : List ℕ) : List ℕ := d.map (fun v => v % 65536)

/-- FingerprintComparator::calculate_hash_overlap: Jaccard similarity of
the deduplicated hash sets. -/
def calculate_hash_overlap (h1 h2 : List ℕ) : ℚ :=
  if h1 = [] ∨ h2 = [] then 0
  else if 0 < h1.toFinset.card + h2.toFinset.card - (h1.toFinset ∩ h2.toFinset).card then
    ((h1.toFinset ∩ h2.toFinset).card : ℚ) /
      ((h1.toFinset.card + h2.toFinset.card - (h1.toFinset ∩ h2.toFinset).card : ℕ) : ℚ)
  else 0

/-- Configuration data of the FingerprintComparator class. -/
structure FingerprintComparator where
  similarity_threshold : ℚ
  bit_error_threshold : ℚ
  minimum_overlap : ℕ
  max_alignment_offset : ℤ
  alignment_step : ℤ

/-- The constructor defaults: 0.85, 0.15, 10, 360, 6. -/
def defaultComparator : FingerprintComparator :=
  { similarity_threshold := 85 / 100
    bit_error_threshold := 15 / 100
    minimum_overlap := 10
    max_alignment_offset := 360
    alignment_step := 6 }

/-- FingerprintComparator::quick_filter: pass iff the Jaccard hash overlap
is at least `similarity_threshold * 0.6`. -/
def quick_filter (cfg : FingerprintComparator) (d1 d2 : List ℕ) : Bool :=
  decide (cfg.similarity_threshold * (6 / 10) ≤
    calculate_hash_overlap (extract_hash_subset d1) (extract_hash_subset d2))

/-- Value of `build_offset_histogram`'s bucket `idx`: the number of index
pairs `(i, j)` whose 16-bit hashes match, whose offset difference `j - i`
is within the search range, and which fall into this bucket. -/
def hash_vote_count (maxOff : ℤ) (d1 d2 : List ℕ) (idx : ℕ) : ℕ :=
  ((List.range d1.length).map (fun i : ℕ =>
    ((List.range d2.length).filter (fun j : ℕ =>
      decide ((extract_hash_subset d1).getD i 0 = (extract_hash_subset d2).getD j 0) &&
      decide (|(j : ℤ) - (i : ℤ)| ≤ maxOff) &&
      decide ((j : ℤ) - (i : ℤ) + maxOff = (idx : ℤ)))).length)).sum

/-- FingerprintComparator::build_offset_histogram: a histogram of size
`2 * max_alignment_offset + 1` whose center bucket is offset zero. -/
def build_offset_histogram (maxOff : ℤ) (d1 d2 : List ℕ) : List ℕ :=
  (List.range (2 * maxOff + 1).toNat).map (hash_vote_count maxOff d1 d2)

/-- Gaussian kernel weight `exp(-(j*j) / (2 * sigma * sigma))` at the
source's `sigma = 2.0`. -/
noncomputable def gauss_weight (j : ℤ) : ℝ := Real.exp (-((j * j : ℤ) : ℝ) / 8)

/-- Kernel index range `[-kernel_size, kernel_size]` with
`kernel_size = int(3 * sigma) = 6`. -/
def kernel_range : List ℤ := (List.range 13).map (fun t : ℕ => ((t : ℤ) - 6))

/-- FingerprintComparator::apply_gaussian_filter (boundary-truncated,
weight-normalized Gaussian smoothing). -/
noncomputable def apply_gaussian_filter (hist : List ℕ) : List ℝ :=
  (List.range hist.length).map (fun i : ℕ =>
    let valid := kernel_range.filter (fun j : ℤ =>
      decide (0 ≤ (i : ℤ) + j) && decide ((i : ℤ) + j < (hist.length : ℤ)))
    let wsum : ℝ := (valid.map gauss_weight).sum
    let s : ℝ := (valid.map (fun j =>
      (hist.getD ((i : ℤ) + j).toNat 0 : ℝ) * gauss_weight j)).sum
    if 0 < wsum then s / wsum else 0)

/-- Indices of strict local maxima above the 0.1 threshold
(the candidate peaks of `find_histogram_peaks`). -/
noncomputable def peak_indices (f : List ℝ) : List ℕ :=
  ((List.range (f.length - 2)).map (fun t => t + 1)).filter (fun i =>
    decide (f.getD (i - 1) 0 < f.getD i 0) &&
    decide (f.getD (i + 1) 0 < f.getD i 0) &&
    decide ((1 / 10 : ℝ) < f.getD i 0))

/-- Insertion step of the sort of peaks by filtered magnitude, highest
first (the comparator of the source's `std::sort` call). -/
noncomputable def insert_peak_desc (f : List ℝ) (p : ℕ) : List ℕ → List ℕ
  | [] => [p]
  | q :: qs =>
      if f.getD q 0 < f.getD p 0 then p :: q :: qs else q :: insert_peak_desc f p qs

/-- Sort of the peak list by filtered magnitude, highest first. -/
noncomputable def sort_peaks_desc (f : List ℝ) : List ℕ → List ℕ
  | [] => []
  | p :: ps => insert_peak_desc f p (sort_peaks_desc f ps)

/-- FingerprintComparator::find_histogram_peaks. -/
noncomputable def find_histogram_peaks (f : List ℝ) : List ℕ :=
  if f.length < 3 then [] else sort_peaks_desc f (peak_indices f)

/-- FingerprintComparator::find_best_alignment_histogram. -/
noncomputable def find_best_alignment_histogram (cfg : FingerprintComparator)
    (d1 d2 : List ℕ) : ℤ :=
  if build_offset_histogram cfg.max_alignment_offset d1 d2 = [] then 0
  else
    match find_histogram_peaks (apply_gaussian_filter
        (build_offset_histogram cfg.max_alignment_offset d1 d2)) with
    | [] => 0
    | p :: _ => (p : ℤ) - cfg.max_alignment_offset

/-- Offsets visited by the coarse correlation scan:
`-max, -max+step, …` while `≤ max` (empty when the loop would not run). -/
def correlation_offsets (maxOff step : ℤ) : List ℤ :=
  if 0 < step ∧ 0 ≤ maxOff then
    (List.range ((2 * maxOff / step).toNat + 1)).map (fun t : ℕ => -maxOff + step * (t : ℤ))
  else []

/-- Loop body of `find_best_alignment_correlation`: keep the offset on a
strict similarity improvement. -/
def correlation_step (d1 d2 : List ℕ) (acc : ℤ × ℚ) (k : ℤ) : ℤ × ℚ :=
  if acc.2 < calculate_similarity_at_offset d1 d2 k
  then (k, calculate_similarity_at_offset d1 d2 k) else acc

/-- The scan state of `find_best_alignment_correlation`: start at
`(offset 0, similarity 0)` and fold the loop body over the offsets. -/
def correlation_scan (d1 d2 : List ℕ) (ks : List ℤ) : ℤ × ℚ :=
  ks.foldl (correlation_step d1 d2) (0, 0)

/-- FingerprintComparator::find_best_alignment_correlation. -/
def find_best_alignment_correlation (cfg : FingerprintComparator)
    (d1 d2 : List ℕ) : ℤ :=
  (correlation_scan d1 d2 (correlation_offsets cfg.max_alignment_offset cfg.alignment_step)).1

/-- Fine-tuning loop of `find_best_alignment`.  The C++ loop condition
`fine_offset <= best_offset + 2` re-reads `best_offset`, which is mutated
on improvement, so the loop is a bounded hill climb; that behaviour is
reproduced here. -/
def fine_tune (d1 d2 : List ℕ) (maxOff fine best : ℤ) (bestSim : ℚ) : ℤ :=
  if h : best + 2 < fine then best
  else if hc : |fine| ≤ maxOff ∧ fine ≠ best ∧
      bestSim < calculate_similarity_at_offset d1 d2 fine then
    fine_tune d1 d2 maxOff (fine + 1) fine (calculate_similarity_at_offset d1 d2 fine)
  else
    fine_tune d1 d2 maxOff (fine + 1) best bestSim
termination_by (max best maxOff + 3 - fine).toNat
decreasing_by
  · have h1 : fine ≤ maxOff := le_trans (le_abs_self fine) hc.1
    omega
  · omega

/-- FingerprintComparator::find_best_alignment: the better of the
histogram and correlation candidates — the histogram offset when
`histogram_similarity >= correlation_similarity`, the correlation offset
otherwise — is fine-tuned starting two offsets below it, with
`best_similarity` the larger of the two candidate similarities. -/
noncomputable def find_best_alignment (cfg : FingerprintComparator)
    (d1 d2 : List ℕ) : ℤ :=
  fine_tune d1 d2 cfg.max_alignment_offset
    ((if calculate_similarity_at_offset d1 d2 (find_best_alignment_correlation cfg d1 d2) ≤
        calculate_similarity_at_offset d1 d2 (find_best_alignment_histogram cfg d1 d2)
      then find_best_alignment_histogram cfg d1 d2
      else find_best_alignment_correlation cfg d1 d2) - 2)
    (if calculate_similarity_at_offset d1 d2 (find_best_alignment_correlation cfg d1 d2) ≤
        calculate_similarity_at_offset d1 d2 (find_best_alignment_histogram cfg d1 d2)
      then find_best_alignment_histogram cfg d1 d2
      else find_best_alignment_correlation cfg d1 d2)
    (max (calculate_similarity_at_offset d1 d2 (find_best_alignment_histogram cfg d1 d2))
      (calculate_similarity_at_offset d1 d2 (find_best_alignment_correlation cfg d1 d2)))

/-- Fingerprint record (chromaprint_wrapper.h). -/
structure Fingerprint where
  data : List ℕ
  sample_rate : ℤ
  duration : ℚ
  file_path : String

/-- MatchResult record (fingerprint_comparator.h); `coverage_r` is the
source's `coverage_ratio` field, untouched by `compare`. -/
structure MatchResult where
  similarity_score : ℚ
  best_offset : ℤ
  matched_segments : ℕ
  bit_error_rate : ℚ
  is_duplicate : Bool
  coverage_r : ℚ
deriving DecidableEq

/-- The default-initialized result of `compare` (its early-return value). -/
def empty_match_result : MatchResult :=
  { similarity_score := 0
    best_offset := 0
    matched_segments := 0
    bit_error_rate := 1
    is_duplicate := false
    coverage_r := 0 }

/-- FingerprintComparator::compare. -/
noncomputable def compare (cfg : FingerprintComparator) (fp1 fp2 : Fingerprint) :
    MatchResult :=
  if fp1.data.length < cfg.minimum_overlap ∨ fp2.data.length < cfg.minimum_overlap then
    empty_match_result
  else if quick_filter cfg fp1.data fp2.data = false then
    empty_match_result
  else
    let k := find_best_alignment cfg fp1.data fp2.data
    let sim := calculate_similarity_at_offset fp1.data fp2.data k
    let ber := calculate_bit_error_rate fp1.data fp2.data k
    let ms := overlap_count fp1.data.length fp2.data.length k
    { similarity_score := sim
      best_offset := k
      matched_segments := ms
      bit_error_rate := ber
      is_duplicate := decide (cfg.similarity_threshold ≤ sim) &&
                      decide (ber ≤ cfg.bit_error_threshold) &&
                      decide (cfg.minimum_overlap ≤ ms)
      coverage_r := 0 }

/-! ## Inverted index and duplicate-group discovery (fingerprint_index.cpp) -/

/-- Placeholder fingerprint (used only as `getD` default; every index the
embedding produces is in range). -/
def emptyFingerprint : Fingerprint := { data := [], sample_rate := 0, duration := 0, file_path := "" }

/-- FileEntry record (fingerprint_index.h). -/
structure FileEntry where
  file_path : String
  fingerprint : Fingerprint

/-- Placeholder file entry for out-of-range `getD` defaults. -/
def emptyFileEntry : FileEntry := { file_path := "", fingerprint := emptyFingerprint }

/-- FingerprintIndex's DEFAULT_HASH_THRESHOLD. -/
def DEFAULT_HASH_THRESHOLD : ℕ := 5

/-- FingerprintIndex::extract_hashes: low 16 bits of every value. -/
def extract_hashes (fp : Fingerprint) : List ℕ := fp.data.map (fun v => v % 65536)

/-- FingerprintIndex::add_file: reject a null or empty fingerprint with
`std::invalid_argument`, otherwise append the entry (its position is the
returned file id) and extend the hash index. -/
def add_file (files : List FileEntry) (path : String) (fp? : Option Fingerprint) :
    Except String (List FileEntry × ℕ) :=
  match fp? with
  | none => .error "Invalid fingerprint provided"
  | some fp =>
      if fp.data = [] then .error "Invalid fingerprint provided"
      else .ok (files ++ [{ file_path := path, fingerprint := fp }], files.length)

/-- Content of the hash-index bucket for hash `h`: the `(file_id, position)`
postings in the order `build_hash_index` appended them (file ids ascending,
positions ascending within a file). -/
def hash_postings (files : List FileEntry) (h : ℕ) : List (ℕ × ℕ) :=
  (List.range files.length).flatMap (fun fid =>
    (((List.range (extract_hashes (files.getD fid emptyFileEntry).fingerprint).length).filter
      (fun pos =>
        decide ((extract_hashes (files.getD fid emptyFileEntry).fingerprint).getD pos 0 = h))).map
      (fun pos => (fid, pos))))

/-- Number of postings of `fid` hit by the query's hashes, counted with
multiplicity — the value `candidate_counts[fid]` reaches in
FingerprintIndex::find_candidates. -/
def candidate_count (files : List FileEntry) (query : Fingerprint) (fid : ℕ) : ℕ :=
  ((extract_hashes query).map (fun h =>
    ((hash_postings files h).filter (fun e => decide (e.1 = fid))).length)).sum

/-- Insertion step of the sort by candidate count, highest first. -/
def insert_desc (c : ℕ → ℕ) (x : ℕ) : List ℕ → List ℕ
  | [] => [x]
  | y :: ys => if c y < c x then x :: y :: ys else y :: insert_desc c x ys

/-- Stable sort by count, highest first.  The source sorts the unordered
map's keys with `std::sort`, whose order on ties is unspecified; the
embedding fixes ascending file id as the tie-break.  No claim depends on
the candidate order. -/
def sort_by_count_desc (c : ℕ → ℕ) (l : List ℕ) : List ℕ := l.foldr (insert_desc c) []

/-- FingerprintIndex::find_candidates (fingerprint overload): file ids
whose count is positive (present in the counter map) and at least the
hash threshold, sorted by count descending. -/
def find_candidates (files : List FileEntry) (hashThr : ℕ) (query : Fingerprint) : List ℕ :=
  sort_by_count_desc (candidate_count files query)
    ((List.range files.length).filter (fun fid =>
      decide (0 < candidate_count files query fid) &&
      decide (hashThr ≤ candidate_count files query fid)))

/-- Marking every member of a duplicate group processed (the source's
loop over the group's `unordered_set` is order-independent, so the mark is
expressed positionally). -/
def mark_processed (processed : List Bool) (g : Finset ℕ) : List Bool :=
  (List.range processed.length).map (fun i => processed.getD i false || decide (i ∈ g))

/-- The `duplicate_group` set built by
FingerprintIndex::find_duplicates_for_file: the seed file plus every
candidate that is distinct from it, unprocessed, and a verified duplicate
of the seed. -/
noncomputable def duplicate_group_of (cfg : FingerprintComparator) (hashThr : ℕ)
    (files : List FileEntry) (processed : List Bool) (fid : ℕ) : Finset ℕ :=
  insert fid
    ((find_candidates files hashThr (files.getD fid emptyFileEntry).fingerprint).filter
      (fun c => decide (c ≠ fid) && !(processed.getD c false) &&
        (compare cfg (files.getD fid emptyFileEntry).fingerprint
          (files.getD c emptyFileEntry).fingerprint).is_duplicate)).toFinset

/-- FingerprintIndex::find_duplicates_for_file as a step on the state
`(processed bitmap, raw groups so far)`.  The guard on entry subsumes the
identical guard of the caller's loop. -/
noncomputable def find_duplicates_for_file (cfg : FingerprintComparator) (hashThr : ℕ)
    (files : List FileEntry) (st : List Bool × List (Finset ℕ)) (fid : ℕ) :
    List Bool × List (Finset ℕ) :=
  if st.1.getD fid false then st
  else if 1 < (duplicate_group_of cfg hashThr files st.1 fid).card then
    (mark_processed st.1 (duplicate_group_of cfg hashThr files st.1 fid),
      st.2 ++ [duplicate_group_of cfg hashThr files st.1 fid])
  else (st.1.set fid true, st.2)

/-- The raw group list produced by the sequential
FingerprintIndex::find_all_duplicates loop. -/
noncomputable def find_all_duplicates_raw (cfg : FingerprintComparator) (hashThr : ℕ)
    (files : List FileEntry) : List (Finset ℕ) :=
  ((List.range files.length).foldl (find_duplicates_for_file cfg hashThr files)
    (List.replicate files.length false, [])).2

/-- DuplicateGroup record (fingerprint_index.h). -/
structure DuplicateGroup where
  file_ids : List ℕ
  avg_similarity : ℚ

/-- Ordered pairs `(l[i], l[j])` with `i < j` — the double loop of
`merge_duplicate_groups`. -/
def list_pairs : List ℕ → List (ℕ × ℕ)
  | [] => []
  | x :: xs => (xs.map (fun y => (x, y))) ++ list_pairs xs

/-- Average pairwise similarity of a group (only pairs of valid ids are
compared, matching the bounds check of the source). -/
noncomputable def group_avg (cfg : FingerprintComparator) (files : List FileEntry)
    (ids : List ℕ) : ℚ :=
  let ps := (list_pairs ids).filter (fun p =>
    decide (p.1 < files.length) && decide (p.2 < files.length))
  if 0 < ps.length then
    ((ps.map (fun p => (compare cfg (files.getD p.1 emptyFileEntry).fingerprint
      (files.getD p.2 emptyFileEntry).fingerprint).similarity_score)).sum) / (ps.length : ℚ)
  else 0

/-- Insertion step of the sort of final groups by average similarity,
highest first. -/
noncomputable def insert_group_desc (g : DuplicateGroup) :
    List DuplicateGroup → List DuplicateGroup
  | [] => [g]
  | x :: xs =>
      if x.avg_similarity < g.avg_similarity then g :: x :: xs
      else x :: insert_group_desc g xs

/-- Sort of the final group list by average similarity, highest first. -/
noncomputable def sort_groups_desc : List DuplicateGroup → List DuplicateGroup
  | [] => []
  | g :: gs => insert_group_desc g (sort_groups_desc gs)

/-- FingerprintIndex::merge_duplicate_groups: keep groups of size at least
two, sort each group's ids ascending, attach the average pairwise
similarity, and sort the groups by it descending. -/
noncomputable def merge_duplicate_groups (cfg : FingerprintComparator)
    (files : List FileEntry) (raw : List (Finset ℕ)) : List DuplicateGroup :=
  sort_groups_desc ((raw.filter (fun g => 1 < g.card)).map (fun g =>
    { file_ids := g.sort (· ≤ ·)
      avg_similarity := group_avg cfg files (g.sort (· ≤ ·)) }))

/-- FingerprintIndex::find_all_duplicates (sequential variant). -/
noncomputable def find_all_duplicates (cfg : FingerprintComparator) (hashThr : ℕ)
    (files : List FileEntry) : List DuplicateGroup :=
  merge_duplicate_groups cfg files (find_all_duplicates_raw cfg hashThr files)

/-! ## Chromaprint wrapper policies (chromaprint_wrapper.cpp) -/

/-- ChromaprintWrapper::is_valid_fingerprint: non-empty data, positive
sample rate, positive duration, and size strictly below 100000. -/
def is_valid_fingerprint (fp : Fingerprint) : Bool :=
  decide (fp.data ≠ []) && decide (0 < fp.sample_rate) &&
  decide ((0 : ℚ) < fp.duration) && decide (fp.data.length < 100000)

/-- AudioData record (audio_loader.h). -/
structure AudioData where
  samples : List ℚ
  sample_rate : ℤ
  channels : ℕ
  frames : ℕ
  duration : ℚ
  original_duration : ℚ

/-- PreprocessConfig (audio_preprocessor.h); only the fields the verified
operations read are carried.  `doubling_threshold` is the source's
`doubling_threshold_ratio`. -/
structure PreprocessConfig where
  trim_silence : Bool
  silence_threshold_db : ℚ
  preserve_padding_ms : ℤ
  disable_doubling_after_trim : Bool
  doubling_threshold : ℚ
  min_duration_for_doubling : ℚ

/-- The in-struct defaults of PreprocessConfig. -/
def defaultPreprocessConfig : PreprocessConfig :=
  { trim_silence := true
    silence_threshold_db := -55
    preserve_padding_ms := 100
    disable_doubling_after_trim := true
    doubling_threshold := 1 / 2
    min_duration_for_doubling := 3 / 2 }

/-- The doubling decision of
ChromaprintWrapper::generate_fingerprint_with_smart_doubling, taken on the
(possibly resampled) audio's duration and original duration;
MIN_DURATION_THRESHOLD is 3.0 seconds. -/
def smart_should_double (cfg? : Option PreprocessConfig)
    (duration original_duration : ℚ) : Bool :=
  if duration < 3 then
    match cfg? with
    | some cfg =>
        if cfg.disable_doubling_after_trim then
          if duration / original_duration < cfg.doubling_threshold then
            decide (cfg.min_duration_for_doubling ≤ original_duration)
          else true
        else true
    | none => true
  else false

/-- The `samples_to_process` buffer of
`generate_fingerprint_with_smart_doubling`: the samples, concatenated with
themselves exactly when the doubling decision fires. -/
def smart_doubled_samples (cfg? : Option PreprocessConfig) (audio : AudioData) : List ℚ :=
  if smart_should_double cfg? audio.duration audio.original_duration then
    audio.samples ++ audio.samples
  else audio.samples

/-! ## Audio preprocessor (audio_preprocessor.cpp) -/

/-- The 10 ms chunk size `max(1, sample_rate / 100)` of the silence scan. -/
def chunk_size (rate : ℤ) : ℕ := max 1 (rate / 100).toNat

/-- AudioPreprocessor::calculate_energy: mean square energy over
`[start, min(start+count, size))`, zero on an empty or invalid range. -/
def calculate_energy (samples : List ℚ) (start count : ℤ) : ℚ :=
  if start < 0 ∨ (samples.length : ℤ) ≤ start ∨ count ≤ 0 then 0
  else
    let e := min (start + count) (samples.length : ℤ)
    (((List.range (e - start).toNat).map (fun t : ℕ =>
      samples.getD (start + (t : ℤ)).toNat 0 * samples.getD (start + (t : ℤ)).toNat 0)).sum) /
      ((e - start : ℤ) : ℚ)

/-- AudioPreprocessor::linear_to_db: `-100` for non-positive input, else
`20 * log10`. -/
noncomputable def linear_to_db (x : ℚ) : ℝ :=
  if x ≤ 0 then -100 else 20 * Real.logb 10 (x : ℝ)

/-- AudioPreprocessor::detect_silence_segment: out-of-bounds start counts
as silence; otherwise the chunk is silent iff its energy in dB is below
the threshold. -/
noncomputable def detect_silence_segment (samples : List ℚ) (start count : ℤ)
    (thr : ℚ) : Bool :=
  if start < 0 ∨ (samples.length : ℤ) ≤ start then true
  else
    let e := min (start + count) (samples.length : ℤ)
    decide (linear_to_db (calculate_energy samples start (e - start)) < (thr : ℝ))

/-- Forward scan of AudioPreprocessor::find_first_non_silent_sample from
sample index `i` in steps of one chunk. -/
noncomputable def find_first_aux (samples : List ℚ) (rate : ℤ) (thr : ℚ) (i : ℕ) :
    Option ℕ :=
  if samples.length ≤ i then none
  else
    if detect_silence_segment samples i
        (min ((chunk_size rate : ℕ) : ℤ) ((samples.length : ℤ) - i)) thr then
      find_first_aux samples rate thr (i + chunk_size rate)
    else some i
termination_by samples.length - i
decreasing_by
  have h1 : 1 ≤ chunk_size rate := le_max_left 1 _
  omega

/-- AudioPreprocessor::find_first_non_silent_sample (`none` is the
source's `-1`). -/
noncomputable def find_first_non_silent (samples : List ℚ) (rate : ℤ) (thr : ℚ) :
    Option ℕ :=
  if samples = [] then none else find_first_aux samples rate thr 0

/-- Backward scan of AudioPreprocessor::find_last_non_silent_sample from
sample index `i` in steps of one chunk; on a hit it returns the last
index of the chunk, `i + count - 1`. -/
noncomputable def find_last_aux (samples : List ℚ) (rate : ℤ) (thr : ℚ) (i : ℤ) :
    Option ℤ :=
  if h : i < 0 then none
  else
    let cnt := min ((chunk_size rate : ℕ) : ℤ) ((samples.length : ℤ) - i)
    if detect_silence_segment samples i cnt thr then
      find_last_aux samples rate thr (i - chunk_size rate)
    else some (i + cnt - 1)
termination_by (i + 1).toNat
decreasing_by
  have h1 : 1 ≤ chunk_size rate := le_max_left 1 _
  omega

/-- AudioPreprocessor::find_last_non_silent_sample. -/
noncomputable def find_last_non_silent (samples : List ℚ) (rate : ℤ) (thr : ℚ) :
    Option ℤ :=
  if samples = [] then none
  else find_last_aux samples rate thr ((samples.length : ℤ) - chunk_size rate)

/-- AudioPreprocessor::trim_silence.  On pure silence the output is
`min(padding_samples, size)` zero samples; otherwise the window
`[max(0, first - pad), min(size - 1, last + pad)]` is copied out.  In both
branches `original_duration` is carried over unchanged. -/
noncomputable def trim_silence (cfg : PreprocessConfig) (input : AudioData) : AudioData :=
  if input.samples = [] then input
  else
    match find_first_non_silent input.samples input.sample_rate cfg.silence_threshold_db,
          find_last_non_silent input.samples input.sample_rate cfg.silence_threshold_db with
    | some first, some last =>
        let pad : ℤ := cfg.preserve_padding_ms * input.sample_rate / 1000
        let s : ℤ := max 0 ((first : ℤ) - pad)
        let e : ℤ := min ((input.samples.length : ℤ) - 1) (last + pad)
        let len : ℕ := (e - s + 1).toNat
        { samples := (input.samples.drop s.toNat).take len
          sample_rate := input.sample_rate
          channels := input.channels
          frames := len
          duration := (len : ℚ) / (input.sample_rate : ℚ)
          original_duration := input.original_duration }
    | _, _ =>
        let pad : ℤ := cfg.preserve_padding_ms * input.sample_rate / 1000
        let padN : ℕ := min pad.toNat input.samples.length
        { samples := List.replicate padN 0
          sample_rate := input.sample_rate
          channels := input.channels
          frames := padN
          duration := (padN : ℚ) / (input.sample_rate : ℚ)
          original_duration := input.original_duration }

/-- AudioPreprocessor::resample_sinc (linear interpolation; identity on an
empty input or equal rates; output size `⌊N * out_rate / in_rate⌋`). -/
def resample_sinc (input : List ℚ) (input_rate output_rate : ℕ) : List ℚ :=
  if input = [] ∨ input_rate = output_rate then input
  else
    let r : ℚ := (output_rate : ℚ) / (input_rate : ℚ)
    let n : ℕ := ⌊(input.length : ℚ) * r⌋₊
    (List.range n).map (fun i : ℕ =>
      let src : ℚ := (i : ℚ) / r
      let m : ℕ := ⌊src⌋₊
      if input.length - 1 ≤ m then input.getLastD 0
      else
        let f : ℚ := src - (m : ℚ)
        input.getD m 0 * (1 - f) + input.getD (m + 1) 0 * f)

/-! ## Basic lemmas about the bit-level primitives -/

theorem popcountAux_le (f n : ℕ) : popcountAux f n ≤ f := by
  induction f generalizing n with
  | zero => simp [popcountAux]
  | succ f ih =>
      have h1 : n % 2 ≤ 1 := Nat.le_of_lt_succ (Nat.mod_lt n (by norm_num))
      calc popcountAux (f + 1) n = n % 2 + popcountAux f (n / 2) := rfl
        _ ≤ 1 + f := Nat.add_le_add h1 (ih (n / 2))
        _ = f + 1 := Nat.add_comm 1 f

theorem popcountAux_zero (f : ℕ) : popcountAux f 0 = 0 := by
  induction f with
  | zero => rfl
  | succ f ih => simp [popcountAux, ih]

theorem bit_errors_le (a b : ℕ) : bit_errors a b ≤ 32 := popcountAux_le 32 _

theorem bit_errors_self (a : ℕ) : bit_errors a a = 0 := by
  simp [bit_errors, popcount32, Nat.xor_self, Nat.zero_mod, popcountAux_zero]

theorem count_matching_bits_self (a : ℕ) : count_matching_bits a a = 32 := by
  simp [count_matching_bits, bit_errors_self]

theorem count_matching_bits_le (a b : ℕ) : count_matching_bits a b ≤ 32 :=
  Nat.sub_le 32 _

theorem count_matching_bits_add_bit_errors (a b : ℕ) :
    count_matching_bits a b + bit_errors a b = 32 :=
  Nat.sub_add_cancel (bit_errors_le a b)

/-! ## Basic lemmas about overlap ranges and similarities -/

theorem overlap_count_self_zero (n : ℕ) : overlap_count n n 0 = n := by
  simp [overlap_count, overlap_hi, overlap_lo]

theorem overlap_count_eq_zero (n1 n2 : ℕ) (k : ℤ)
    (h : (n2 : ℤ) ≤ k ∨ k ≤ -(n1 : ℤ)) : overlap_count n1 n2 k = 0 := by
  rcases h with h | h <;> simp [overlap_count, overlap_hi, overlap_lo] <;> omega

theorem aligned_sum_self_matching (d : List ℕ) :
    aligned_sum count_matching_bits d d 0 = 32 * d.length := by
  have h : ∀ t ∈ List.range (overlap_count d.length d.length 0),
      count_matching_bits (fpGet d (overlap_lo 0 + (t : ℤ)))
        (fpGet d (overlap_lo 0 + (t : ℤ) + 0)) = 32 := by
    intro t _
    rw [add_zero, count_matching_bits_self]
  rw [aligned_sum, List.map_congr_left h]
  simp [List.sum_replicate, overlap_count_self_zero, Nat.mul_comm]

theorem aligned_sum_self_errors (d : List ℕ) :
    aligned_sum bit_errors d d 0 = 0 := by
  have h : ∀ t ∈ List.range (overlap_count d.length d.length 0),
      bit_errors (fpGet d (overlap_lo 0 + (t : ℤ)))
        (fpGet d (overlap_lo 0 + (t : ℤ) + 0)) = 0 := by
    intro t _
    rw [add_zero, bit_errors_self]
  rw [aligned_sum, List.map_congr_left h]
  simp

theorem sim_self_zero (d : List ℕ) (hd : d ≠ []) :
    calculate_similarity_at_offset d d 0 = 1 := by
  have hn : d.length ≠ 0 := fun h => hd (List.length_eq_zero.mp h)
  have hc : overlap_count d.length d.length 0 ≠ 0 := by
    rw [overlap_count_self_zero]; exact hn
  rw [calculate_similarity_at_offset, if_neg hc, aligned_sum_self_matching,
    overlap_count_self_zero]
  have hq : (d.length : ℚ) ≠ 0 := Nat.cast_ne_zero.mpr hn
  push_cast
  rw [div_self (mul_ne_zero (by norm_num) hq)]

theorem ber_self_zero (d : List ℕ) (hd : d ≠ []) :
    calculate_bit_error_rate d d 0 = 0 := by
  have hn : d.length ≠ 0 := fun h => hd (List.length_eq_zero.mp h)
  have hc : overlap_count d.length d.length 0 ≠ 0 := by
    rw [overlap_count_self_zero]; exact hn
  rw [calculate_bit_error_rate, if_neg hc, aligned_sum_self_errors]
  simp

theorem sim_nonneg (d1 d2 : List ℕ) (k : ℤ) :
    0 ≤ calculate_similarity_at_offset d1 d2 k := by
  rw [calculate_similarity_at_offset]
  split
  · exact le_refl 0
  · positivity

/-- Bridging lemma: a strict similarity comparison against offset zero
follows from the corresponding comparison of the integer bit counts. -/
theorem sim_lt_sim_zero (d1 d2 : List ℕ) (k : ℤ)
    (hc0 : overlap_count d1.length d2.length 0 ≠ 0)
    (h : if overlap_count d1.length d2.length k = 0
      then 0 < aligned_sum count_matching_bits d1 d2 0
      else aligned_sum count_matching_bits d1 d2 k * overlap_count d1.length d2.length 0 <
        aligned_sum count_matching_bits d1 d2 0 * overlap_count d1.length d2.length k) :
    calculate_similarity_at_offset d1 d2 k < calculate_similarity_at_offset d1 d2 0 := by
  unfold calculate_similarity_at_offset
  rcases Nat.eq_zero_or_pos (overlap_count d1.length d2.length k) with hk | hk
  · rw [if_pos hk] at h ⊢
    rw [if_neg hc0]
    have h1 : (0 : ℚ) < aligned_sum count_matching_bits d1 d2 0 := by exact_mod_cast h
    have h2 : (0 : ℚ) < (overlap_count d1.length d2.length 0 : ℚ) := by
      exact_mod_cast Nat.pos_of_ne_zero hc0
    positivity
  · rw [if_neg (Nat.pos_iff_ne_zero.mp hk)] at h ⊢
    rw [if_neg hc0]
    rw [div_lt_div_iff₀ (by positivity) (by
      have : (0 : ℚ) < (overlap_count d1.length d2.length 0 : ℚ) := by
        exact_mod_cast Nat.pos_of_ne_zero hc0
      positivity)]
    have hq : (aligned_sum count_matching_bits d1 d2 k : ℚ) *
        (overlap_count d1.length d2.length 0 : ℚ) <
        (aligned_sum count_matching_bits d1 d2 0 : ℚ) *
        (overlap_count d1.length d2.length k : ℚ) := by
      exact_mod_cast h
    nlinarith [hq]

/-! ## C7 — fingerprint validity -/

/-- C7 (amended): validity of a fingerprint is equivalent to non-empty
data, positive sample rate, positive duration, and size strictly below
100000 entries (the source checks `data.size() < 100000`, so exactly
100000 entries is invalid). -/
theorem is_valid_fingerprint_iff (fp : Fingerprint) :
    is_valid_fingerprint fp = true ↔
      (fp.data ≠ [] ∧ 0 < fp.sample_rate ∧ (0 : ℚ) < fp.duration ∧
        fp.data.length < 100000) := by
  simp [is_valid_fingerprint, and_assoc]

/-- Fingerprint with exactly 100000 entries, positive rate and duration. -/
def fp100k : Fingerprint :=
  { data := List.replicate 100000 1, sample_rate := 11025, duration := 1, file_path := "" }

/-- Counterexample to C7 as stated: a fingerprint with exactly 100000
entries, positive sample rate and positive duration is rejected by
`is_valid_fingerprint`, because the source requires `size < 100000`
strictly. -/
theorem is_valid_fingerprint_100000_false :
    is_valid_fingerprint fp100k = false ∧ fp100k.data ≠ [] ∧
      0 < fp100k.sample_rate ∧ (0 : ℚ) < fp100k.duration ∧
      fp100k.data.length = 100000 := by
  have hL : fp100k.data.length = 100000 := by
    show (List.replicate 100000 1).length = 100000
    rw [List.length_replicate]
  refine ⟨?_, ?_, ?_, ?_, hL⟩
  · simp [is_valid_fingerprint, hL]
  · intro h
    rw [h] at hL
    simp at hL
  · show (0 : ℤ) < 11025
    norm_num
  · show (0 : ℚ) < 1
    norm_num

/-! ## C5 — smart doubling policy -/

/-- The S7 scenario configuration: trimming enabled, doubling guarded,
ratio threshold 0.5 and the given minimum duration for doubling. -/
def s7Config (minDur : ℚ) : PreprocessConfig :=
  { trim_silence := true
    silence_threshold_db := -55
    preserve_padding_ms := 100
    disable_doubling_after_trim := true
    doubling_threshold := 1 / 2
    min_duration_for_doubling := minDur }

/-- C5: for audio whose processed duration is below 3.0 s, with
`disable_doubling_after_trim` set and a heavily trimmed ratio the samples
are doubled exactly when the original duration reaches
`min_duration_for_doubling`; with a mild ratio, or with the flag unset,
they are always doubled.  The last two conjuncts are the two literal S7
instances (original 2.0 s, processed 0.6 s, ratio threshold 0.5, minimum
1.5 resp. 2.5). -/
theorem smart_doubling_policy (cfg : PreprocessConfig) (audio : AudioData)
    (hdur : audio.duration < 3) (hsam : audio.samples ≠ []) :
    (cfg.disable_doubling_after_trim = true →
      audio.duration / audio.original_duration < cfg.doubling_threshold →
        (smart_doubled_samples (some cfg) audio = audio.samples ++ audio.samples ↔
          cfg.min_duration_for_doubling ≤ audio.original_duration)) ∧
    (cfg.disable_doubling_after_trim = true →
      ¬ audio.duration / audio.original_duration < cfg.doubling_threshold →
        smart_doubled_samples (some cfg) audio = audio.samples ++ audio.samples) ∧
    (cfg.disable_doubling_after_trim = false →
      smart_doubled_samples (some cfg) audio = audio.samples ++ audio.samples) ∧
    (smart_should_double (some (s7Config (3 / 2))) (3 / 5) 2 = true) ∧
    (smart_should_double (some (s7Config (5 / 2))) (3 / 5) 2 = false) := by
  have hneq : audio.samples ≠ audio.samples ++ audio.samples := by
    intro h
    have hlen := congrArg List.length h
    rw [List.length_append] at hlen
    have h0 : audio.samples.length = 0 := by omega
    exact hsam (List.length_eq_zero.mp h0)
  refine ⟨?_, ?_, ?_, ?_, ?_⟩
  · intro hdis hrat
    have hsd : smart_should_double (some cfg) audio.duration audio.original_duration =
        decide (cfg.min_duration_for_doubling ≤ audio.original_duration) := by
      simp [smart_should_double, hdur, hdis, hrat]
    by_cases hmin : cfg.min_duration_for_doubling ≤ audio.original_duration
    · simp [smart_doubled_samples, hsd, hmin]
    · simp only [smart_doubled_samples, hsd]
      simp [hmin, hsam]
  · intro hdis hrat
    simp [smart_doubled_samples, smart_should_double, hdur, hdis, hrat]
  · intro hdis
    simp [smart_doubled_samples, smart_should_double, hdur, hdis]
  · simp only [smart_should_double, s7Config]
    norm_num
  · simp only [smart_should_double, s7Config]
    norm_num

/-- Short concrete audio: processed 0.6 s, original 2.0 s. -/
def sampleAudio : AudioData :=
  { samples := [1], sample_rate := 11025, channels := 1, frames := 1,
    duration := 3 / 5, original_duration := 2 }

/-- Witness for C5 at the S7 configuration. -/
theorem smart_doubling_policy_witness :
    smart_should_double (some (s7Config (3 / 2))) (3 / 5) 2 = true :=
  (smart_doubling_policy defaultPreprocessConfig sampleAudio
    (by norm_num [sampleAudio]) (by simp [sampleAudio])).2.2.2.1

/-! ## C4 — invalid input handling -/

/-- C4 (amended): `add_file` rejects a null or empty fingerprint with the
`std::invalid_argument` error (leaving the functional index state
unchanged, since no state is produced), while `compare` on an empty
fingerprint returns the default zero result normally, without surfacing
any error. -/
theorem add_file_compare_invalid_input (files : List FileEntry) (path : String)
    (fp? : Option Fingerprint)
    (h : fp? = none ∨ ∃ fp, fp? = some fp ∧ fp.data = []) :
    add_file files path fp? = Except.error "Invalid fingerprint provided" ∧
    (∀ fpe fp2 : Fingerprint, fpe.data = [] →
      compare defaultComparator fpe fp2 = empty_match_result ∧
      compare defaultComparator fp2 fpe = empty_match_result) := by
  constructor
  · rcases h with h | ⟨fp, hfp, hdata⟩
    · rw [h]
      rfl
    · rw [hfp]
      simp [add_file, hdata]
  · intro fpe fp2 hdata
    have hlen : fpe.data.length < defaultComparator.minimum_overlap := by
      rw [hdata]
      simp [defaultComparator]
    constructor
    · unfold compare
      rw [if_pos (Or.inl hlen)]
    · unfold compare
      rw [if_pos (Or.inr hlen)]

/-- Empty fingerprint. -/
def emptyFpRecord : Fingerprint :=
  { data := [], sample_rate := 11025, duration := 1, file_path := "e.wav" }

/-- Counterexample to the `compare` half of C4 as stated: on an empty
fingerprint, `compare` does not surface any error — it is a total
function in the source and returns the default zero result with
`is_duplicate = false`. -/
theorem compare_empty_returns_default :
    compare defaultComparator emptyFpRecord emptyFpRecord = empty_match_result ∧
    empty_match_result.is_duplicate = false := by
  constructor
  · unfold compare
    rw [if_pos (Or.inl (by simp [emptyFpRecord, defaultComparator]))]
  · rfl

/-- Witness for C4 at a concrete empty-fingerprint input. -/
theorem add_file_compare_invalid_input_witness :
    add_file [] "x.wav" (some emptyFpRecord) = Except.error "Invalid fingerprint provided" :=
  (add_file_compare_invalid_input [] "x.wav" (some emptyFpRecord)
    (Or.inr ⟨emptyFpRecord, rfl, rfl⟩)).1

/-! ## C6 — quick-filter rejection on disjoint hash sets -/

theorem calculate_hash_overlap_disjoint (h1 h2 : List ℕ)
    (hd : Disjoint h1.toFinset h2.toFinset) : calculate_hash_overlap h1 h2 = 0 := by
  have hint : (h1.toFinset ∩ h2.toFinset).card = 0 := by
    rw [Finset.disjoint_iff_inter_eq_empty.mp hd]
    rfl
  unfold calculate_hash_overlap
  split
  · rfl
  · simp [hint]

/-- C6: when the low-16-bit hash sets of the two fingerprints are
disjoint, `compare` (at the default thresholds) takes the quick-filter
early return: the result is the default zero result — similarity 0,
matched_segments 0, bit error rate 1, is_duplicate false — and the
alignment search never contributes. -/
theorem compare_quick_filter_reject (fp1 fp2 : Fingerprint)
    (hd : Disjoint (extract_hash_subset fp1.data).toFinset
      (extract_hash_subset fp2.data).toFinset) :
    compare defaultComparator fp1 fp2 = empty_match_result ∧
    empty_match_result.similarity_score = 0 ∧
    empty_match_result.matched_segments = 0 ∧
    empty_match_result.bit_error_rate = 1 ∧
    empty_match_result.is_duplicate = false := by
  refine ⟨?_, rfl, rfl, rfl, rfl⟩
  have hqf : quick_filter defaultComparator fp1.data fp2.data = false := by
    unfold quick_filter
    rw [calculate_hash_overlap_disjoint _ _ hd]
    simp only [decide_eq_false_iff_not, not_le, defaultComparator]
    norm_num
  unfold compare
  rw [hqf]
  simp

/-- Concrete disjoint-hash fingerprints for the C6 witness. -/
def fpHashOne : Fingerprint :=
  { data := [1, 1, 1, 1, 1, 1, 1, 1, 1, 1], sample_rate := 11025, duration := 1, file_path := "" }

/-- Second concrete fingerprint, hash-disjoint from `fpHashOne`. -/
def fpHashTwo : Fingerprint :=
  { data := [2, 2, 2, 2, 2, 2, 2, 2, 2, 2], sample_rate := 11025, duration := 1, file_path := "" }

/-- Witness for C6 at concrete disjoint-hash fingerprints. -/
theorem compare_quick_filter_reject_witness :
    compare defaultComparator fpHashOne fpHashTwo = empty_match_result :=
  (compare_quick_filter_reject fpHashOne fpHashTwo (by decide)).1

/-! ## Bounds on the alignment search -/

theorem mem_insert_peak_desc (f : List ℝ) (p x : ℕ) (l : List ℕ) :
    x ∈ insert_peak_desc f p l ↔ x = p ∨ x ∈ l := by
  induction l with
  | nil => simp [insert_peak_desc]
  | cons q qs ih =>
      rw [insert_peak_desc]
      split
      · simp [List.mem_cons]
      · simp only [List.mem_cons, ih]
        tauto

theorem mem_sort_peaks_desc (f : List ℝ) (l : List ℕ) (x : ℕ) :
    x ∈ sort_peaks_desc f l ↔ x ∈ l := by
  induction l with
  | nil => simp [sort_peaks_desc]
  | cons p ps ih =>
      rw [sort_peaks_desc, mem_insert_peak_desc]
      simp [ih]

theorem peak_indices_bounds (f : List ℝ) (p : ℕ) (hp : p ∈ peak_indices f) :
    1 ≤ p ∧ p + 1 < f.length := by
  unfold peak_indices at hp
  rw [List.mem_filter] at hp
  obtain ⟨hmem, _⟩ := hp
  rw [List.mem_map] at hmem
  obtain ⟨t, ht, rfl⟩ := hmem
  rw [List.mem_range] at ht
  omega

theorem find_histogram_peaks_bounds (f : List ℝ) (p : ℕ) (rest : List ℕ)
    (h : find_histogram_peaks f = p :: rest) : 1 ≤ p ∧ p + 1 < f.length := by
  unfold find_histogram_peaks at h
  split at h
  · exact absurd h (by simp)
  · have hp : p ∈ sort_peaks_desc f (peak_indices f) := by
      rw [h]
      exact List.mem_cons_self p rest
    rw [mem_sort_peaks_desc] at hp
    exact peak_indices_bounds f p hp

theorem apply_gaussian_filter_length (hist : List ℕ) :
    (apply_gaussian_filter hist).length = hist.length := by
  simp [apply_gaussian_filter]

theorem build_offset_histogram_length (maxOff : ℤ) (d1 d2 : List ℕ) :
    (build_offset_histogram maxOff d1 d2).length = (2 * maxOff + 1).toNat := by
  simp [build_offset_histogram]

theorem find_best_alignment_histogram_bound (cfg : FingerprintComparator)
    (hmax : 0 ≤ cfg.max_alignment_offset) (d1 d2 : List ℕ) :
    |find_best_alignment_histogram cfg d1 d2| ≤ cfg.max_alignment_offset := by
  unfold find_best_alignment_histogram
  split
  · simpa using hmax
  · cases hpk : find_histogram_peaks
        (apply_gaussian_filter (build_offset_histogram cfg.max_alignment_offset d1 d2)) with
    | nil => simp only [hpk]; simpa using hmax
    | cons p rest =>
        have hb := find_histogram_peaks_bounds _ p rest hpk
        rw [apply_gaussian_filter_length, build_offset_histogram_length] at hb
        simp only [hpk]
        rw [abs_le]
        constructor <;> omega

theorem correlation_offsets_bound (maxOff step k : ℤ)
    (hk : k ∈ correlation_offsets maxOff step) : -maxOff ≤ k ∧ k ≤ maxOff := by
  unfold correlation_offsets at hk
  split at hk
  · next hcond =>
      obtain ⟨hstep, hmax⟩ := hcond
      rw [List.mem_map] at hk
      obtain ⟨t, ht, rfl⟩ := hk
      rw [List.mem_range] at ht
      have ht1 : (t : ℤ) ≤ 2 * maxOff / step := by
        have hnn : 0 ≤ 2 * maxOff / step := Int.ediv_nonneg (by omega) hstep.le
        omega
      have h2 : 2 * maxOff / step * step ≤ 2 * maxOff := Int.ediv_mul_le _ (by omega)
      have h3 : step * (t : ℤ) ≤ step * (2 * maxOff / step) :=
        mul_le_mul_of_nonneg_left ht1 hstep.le
      constructor
      · have : 0 ≤ step * (t : ℤ) := mul_nonneg hstep.le (by positivity)
        omega
      · have : step * (2 * maxOff / step) = 2 * maxOff / step * step := mul_comm _ _
        omega
  · simp at hk

theorem correlation_scan_fst_cases (d1 d2 : List ℕ) :
    ∀ (ks : List ℤ) (acc : ℤ × ℚ),
      (ks.foldl (correlation_step d1 d2) acc).1 = acc.1 ∨
      (ks.foldl (correlation_step d1 d2) acc).1 ∈ ks := by
  intro ks
  induction ks with
  | nil => intro acc; left; rfl
  | cons k ks ih =>
      intro acc
      rw [List.foldl_cons]
      rcases ih (correlation_step d1 d2 acc k) with h | h
      · rw [h]
        unfold correlation_step
        split
        · right
          exact List.mem_cons_self k ks
        · left
          rfl
      · right
        exact List.mem_cons_of_mem k h

theorem find_best_alignment_correlation_bound (cfg : FingerprintComparator)
    (hmax : 0 ≤ cfg.max_alignment_offset) (d1 d2 : List ℕ) :
    |find_best_alignment_correlation cfg d1 d2| ≤ cfg.max_alignment_offset := by
  unfold find_best_alignment_correlation correlation_scan
  rcases correlation_scan_fst_cases d1 d2
      (correlation_offsets cfg.max_alignment_offset cfg.alignment_step) (0, 0) with h | h
  · rw [h]
    simpa using hmax
  · have hb := correlation_offsets_bound _ _ _ h
    rw [abs_le]
    exact hb

theorem fine_tune_bound (d1 d2 : List ℕ) (maxOff : ℤ) :
    ∀ (n : ℕ) (best fine : ℤ) (bs : ℚ), (max best maxOff + 3 - fine).toNat ≤ n →
      |best| ≤ maxOff → |fine_tune d1 d2 maxOff fine best bs| ≤ maxOff := by
  intro n
  induction n with
  | zero =>
      intro best fine bs hf hb
      rw [fine_tune, dif_pos (by omega : best + 2 < fine)]
      exact hb
  | succ n ih =>
      intro best fine bs hf hb
      rw [fine_tune]
      by_cases hstop : best + 2 < fine
      · rw [dif_pos hstop]
        exact hb
      · rw [dif_neg hstop]
        by_cases hc : |fine| ≤ maxOff ∧ fine ≠ best ∧
            bs < calculate_similarity_at_offset d1 d2 fine
        · rw [dif_pos hc]
          have hfm : max fine maxOff = maxOff :=
            max_eq_right (le_trans (le_abs_self fine) hc.1)
          have habs := abs_le.mp hc.1
          refine ih fine (fine + 1) _ ?_ hc.1
          rw [hfm]
          have hbm : maxOff ≤ max best maxOff := le_max_right best maxOff
          omega
        · rw [dif_neg hc]
          exact ih best (fine + 1) bs (by omega) hb

theorem find_best_alignment_bound (cfg : FingerprintComparator)
    (hmax : 0 ≤ cfg.max_alignment_offset) (d1 d2 : List ℕ) :
    |find_best_alignment cfg d1 d2| ≤ cfg.max_alignment_offset := by
  unfold find_best_alignment
  have hbase : |if calculate_similarity_at_offset d1 d2 (find_best_alignment_correlation cfg d1 d2) ≤
      calculate_similarity_at_offset d1 d2 (find_best_alignment_histogram cfg d1 d2)
      then find_best_alignment_histogram cfg d1 d2
      else find_best_alignment_correlation cfg d1 d2| ≤ cfg.max_alignment_offset := by
    split
    · exact find_best_alignment_histogram_bound cfg hmax d1 d2
    · exact find_best_alignment_correlation_bound cfg hmax d1 d2
  exact fine_tune_bound d1 d2 cfg.max_alignment_offset _ _ _ _ le_rfl hbase

/-! ## C10 — best_offset bound -/

/-- C10: the best offset reported by `compare` always satisfies
`|best_offset| ≤ max_alignment_offset` (the constructor default is 360 and
the setter clamps the bound to be non-negative), including the early
returns where the offset is zero. -/
theorem compare_best_offset_bound (cfg : FingerprintComparator)
    (hmax : 0 ≤ cfg.max_alignment_offset) (fp1 fp2 : Fingerprint) :
    |(compare cfg fp1 fp2).best_offset| ≤ cfg.max_alignment_offset := by
  unfold compare
  split
  · simpa [empty_match_result] using hmax
  · by_cases hqf : quick_filter cfg fp1.data fp2.data = false
    · rw [hqf]
      simpa [empty_match_result] using hmax
    · rw [if_neg hqf]
      exact find_best_alignment_bound cfg hmax fp1.data fp2.data

/-- Witness for C10 at the default configuration and concrete inputs. -/
theorem compare_best_offset_bound_witness :
    |(compare defaultComparator fpHashOne fpHashTwo).best_offset| ≤
      defaultComparator.max_alignment_offset :=
  compare_best_offset_bound defaultComparator (by norm_num [defaultComparator])
    fpHashOne fpHashTwo

/-! ## The alignment search at a strict similarity argmax -/

theorem calculate_hash_overlap_self (h1 : List ℕ) (hne : h1 ≠ []) :
    calculate_hash_overlap h1 h1 = 1 := by
  have hcard : 0 < h1.toFinset.card := by
    rw [Finset.card_pos]
    exact (List.toFinset_nonempty_iff _).mpr hne
  unfold calculate_hash_overlap
  rw [if_neg (by simp [hne]), Finset.inter_self]
  have huni : h1.toFinset.card + h1.toFinset.card - h1.toFinset.card = h1.toFinset.card := by
    omega
  rw [huni, if_pos hcard, div_self (by exact_mod_cast hcard.ne')]

theorem quick_filter_self (cfg : FingerprintComparator) (d : List ℕ) (hne : d ≠ [])
    (hth : cfg.similarity_threshold * (6 / 10) ≤ 1) :
    quick_filter cfg d d = true := by
  unfold quick_filter
  rw [calculate_hash_overlap_self _ (by simp [extract_hash_subset, hne])]
  exact decide_eq_true hth

theorem correlation_scan_argmax (d1 d2 : List ℕ) (ks : List ℤ)
    (hpos : 0 < calculate_similarity_at_offset d1 d2 0)
    (hmax : ∀ k ∈ ks, k ≠ 0 →
      calculate_similarity_at_offset d1 d2 k < calculate_similarity_at_offset d1 d2 0)
    (h0 : (0 : ℤ) ∈ ks) :
    correlation_scan d1 d2 ks = (0, calculate_similarity_at_offset d1 d2 0) := by
  suffices haux : ∀ (l : List ℤ) (acc : ℤ × ℚ),
      (∀ k ∈ l, k ≠ 0 →
        calculate_similarity_at_offset d1 d2 k < calculate_similarity_at_offset d1 d2 0) →
      (acc = (0, calculate_similarity_at_offset d1 d2 0) ∨
        acc.2 < calculate_similarity_at_offset d1 d2 0) →
      ((0 : ℤ) ∈ l ∨ acc = (0, calculate_similarity_at_offset d1 d2 0)) →
      l.foldl (correlation_step d1 d2) acc =
        (0, calculate_similarity_at_offset d1 d2 0) by
    exact haux ks (0, 0) hmax (Or.inr hpos) (Or.inl h0)
  intro l
  induction l with
  | nil =>
      intro acc _ _ hcond
      rcases hcond with h | h
      · exact absurd h (List.not_mem_nil 0)
      · simpa using h
  | cons k ks ih =>
      intro acc hksmax hinv hcond
      have htail : ∀ x ∈ ks, x ≠ 0 →
          calculate_similarity_at_offset d1 d2 x < calculate_similarity_at_offset d1 d2 0 :=
        fun x hx hne => hksmax x (List.mem_cons_of_mem _ hx) hne
      rw [List.foldl_cons]
      by_cases hk : k = 0
      · subst hk
        have hacc1 : correlation_step d1 d2 acc 0 =
            (0, calculate_similarity_at_offset d1 d2 0) := by
          unfold correlation_step
          rcases hinv with h | h
          · rw [h]
            simp
          · rw [if_pos h]
        rw [hacc1]
        exact ih _ htail (Or.inl rfl) (Or.inr rfl)
      · have hklt := hksmax k (List.mem_cons_self _ _) hk
        have habsorb : acc = (0, calculate_similarity_at_offset d1 d2 0) →
            correlation_step d1 d2 acc k = (0, calculate_similarity_at_offset d1 d2 0) := by
          intro h
          unfold correlation_step
          rw [h]
          simp only
          rw [if_neg (not_lt.mpr hklt.le)]
        have hinv1 : correlation_step d1 d2 acc k =
            (0, calculate_similarity_at_offset d1 d2 0) ∨
            (correlation_step d1 d2 acc k).2 < calculate_similarity_at_offset d1 d2 0 := by
          rcases hinv with h | h
          · exact Or.inl (habsorb h)
          · unfold correlation_step
            split
            · exact Or.inr hklt
            · exact Or.inr h
        have hcond1 : (0 : ℤ) ∈ ks ∨ correlation_step d1 d2 acc k =
            (0, calculate_similarity_at_offset d1 d2 0) := by
          rcases hcond with hmem | hacc
          · rcases List.mem_cons.mp hmem with h | h
            · exact absurd h.symm hk
            · exact Or.inl h
          · exact Or.inr (habsorb hacc)
        exact ih _ htail hinv1 hcond1

theorem fine_tune_const (d1 d2 : List ℕ) (maxOff best : ℤ) (bs : ℚ)
    (h : ∀ k : ℤ, |k| ≤ maxOff → k ≠ best →
      calculate_similarity_at_offset d1 d2 k ≤ bs) :
    ∀ fine : ℤ, fine_tune d1 d2 maxOff fine best bs = best := by
  have key : ∀ (n : ℕ) (fine : ℤ), (best + 3 - fine).toNat ≤ n →
      fine_tune d1 d2 maxOff fine best bs = best := by
    intro n
    induction n with
    | zero =>
        intro fine hf
        rw [fine_tune, dif_pos (by omega : best + 2 < fine)]
    | succ n ih =>
        intro fine hf
        rw [fine_tune]
        by_cases hstop : best + 2 < fine
        · rw [dif_pos hstop]
        · rw [dif_neg hstop, dif_neg ?hc]
          case hc =>
            rintro ⟨h1, h2, h3⟩
            exact absurd h3 (not_lt.mpr (h fine h1 h2))
          exact ih (fine + 1) (by omega)
  intro fine
  exact key (best + 3 - fine).toNat fine le_rfl

theorem find_best_alignment_eq_zero (cfg : FingerprintComparator) (d1 d2 : List ℕ)
    (hmax : 0 ≤ cfg.max_alignment_offset)
    (h0 : (0 : ℤ) ∈ correlation_offsets cfg.max_alignment_offset cfg.alignment_step)
    (hpos : 0 < calculate_similarity_at_offset d1 d2 0)
    (hargmax : ∀ k : ℤ, |k| ≤ cfg.max_alignment_offset → k ≠ 0 →
      calculate_similarity_at_offset d1 d2 k < calculate_similarity_at_offset d1 d2 0) :
    find_best_alignment cfg d1 d2 = 0 := by
  have hscan : correlation_scan d1 d2
      (correlation_offsets cfg.max_alignment_offset cfg.alignment_step) =
      (0, calculate_similarity_at_offset d1 d2 0) :=
    correlation_scan_argmax d1 d2 _ hpos
      (fun k hk hne =>
        hargmax k (abs_le.mpr (correlation_offsets_bound _ _ _ hk)) hne) h0
  have hc : find_best_alignment_correlation cfg d1 d2 = 0 := by
    unfold find_best_alignment_correlation
    rw [hscan]
  have hhb : |find_best_alignment_histogram cfg d1 d2| ≤ cfg.max_alignment_offset :=
    find_best_alignment_histogram_bound cfg hmax d1 d2
  have hhs : calculate_similarity_at_offset d1 d2 (find_best_alignment_histogram cfg d1 d2) ≤
      calculate_similarity_at_offset d1 d2 0 := by
    by_cases hz : find_best_alignment_histogram cfg d1 d2 = 0
    · rw [hz]
    · exact (hargmax _ hhb hz).le
  unfold find_best_alignment
  rw [hc]
  have hbase0 : (if calculate_similarity_at_offset d1 d2 0 ≤
      calculate_similarity_at_offset d1 d2 (find_best_alignment_histogram cfg d1 d2)
      then find_best_alignment_histogram cfg d1 d2 else (0 : ℤ)) = 0 := by
    by_cases hz : find_best_alignment_histogram cfg d1 d2 = 0
    · rw [hz]
      exact ite_self 0
    · rw [if_neg (not_le.mpr (hargmax _ hhb hz))]
  have hbs : max (calculate_similarity_at_offset d1 d2
        (find_best_alignment_histogram cfg d1 d2))
      (calculate_similarity_at_offset d1 d2 0) =
      calculate_similarity_at_offset d1 d2 0 := max_eq_right hhs
  rw [hbase0, hbs]
  exact fine_tune_const d1 d2 cfg.max_alignment_offset 0
    (calculate_similarity_at_offset d1 d2 0)
    (fun k hk hkne => (hargmax k hk hkne).le) (0 - 2)

/-- Evaluation of `compare` when the alignment lands at offset zero and
both guards pass. -/
theorem compare_eq_at_zero (cfg : FingerprintComparator) (fp1 fp2 : Fingerprint)
    (hl1 : cfg.minimum_overlap ≤ fp1.data.length)
    (hl2 : cfg.minimum_overlap ≤ fp2.data.length)
    (hqf : quick_filter cfg fp1.data fp2.data = true)
    (halign : find_best_alignment cfg fp1.data fp2.data = 0) :
    compare cfg fp1 fp2 =
      { similarity_score := calculate_similarity_at_offset fp1.data fp2.data 0
        best_offset := 0
        matched_segments := overlap_count fp1.data.length fp2.data.length 0
        bit_error_rate := calculate_bit_error_rate fp1.data fp2.data 0
        is_duplicate :=
          decide (cfg.similarity_threshold ≤
            calculate_similarity_at_offset fp1.data fp2.data 0) &&
          decide (calculate_bit_error_rate fp1.data fp2.data 0 ≤
            cfg.bit_error_threshold) &&
          decide (cfg.minimum_overlap ≤ overlap_count fp1.data.length fp2.data.length 0)
        coverage_r := 0 } := by
  unfold compare
  rw [if_neg (by rw [not_or]; exact ⟨not_lt.mpr hl1, not_lt.mpr hl2⟩)]
  rw [if_neg (by simp [hqf])]
  rw [halign]

/-- Transfer of a finite integer-level argmax check (over the range that
can have a non-empty overlap) to the full offset range. -/
theorem argmax_bridge (d1 d2 : List ℕ) (L : ℕ) (M : ℤ)
    (hL1 : d1.length ≤ L) (hL2 : d2.length ≤ L)
    (hc0 : overlap_count d1.length d2.length 0 ≠ 0)
    (hpos : 0 < calculate_similarity_at_offset d1 d2 0)
    (hchk : ∀ k ∈ Finset.Icc (-(L : ℤ)) (L : ℤ), k ≠ 0 →
      (if overlap_count d1.length d2.length k = 0
        then 0 < aligned_sum count_matching_bits d1 d2 0
        else aligned_sum count_matching_bits d1 d2 k * overlap_count d1.length d2.length 0 <
          aligned_sum count_matching_bits d1 d2 0 * overlap_count d1.length d2.length k)) :
    ∀ k : ℤ, |k| ≤ M → k ≠ 0 →
      calculate_similarity_at_offset d1 d2 k < calculate_similarity_at_offset d1 d2 0 := by
  intro k _ hkne
  by_cases hin : |k| ≤ (L : ℤ)
  · exact sim_lt_sim_zero d1 d2 k hc0 (hchk k (Finset.mem_Icc.mpr (abs_le.mp hin)) hkne)
  · push_neg at hin
    have hzero : overlap_count d1.length d2.length k = 0 := by
      apply overlap_count_eq_zero
      rcases lt_abs.mp hin with h | h
      · left
        omega
      · right
        omega
    rw [calculate_similarity_at_offset, if_pos hzero]
    exact hpos

/-! ## C1 — self comparison -/

/-- C1 (amended): for every fingerprint that (a) has at least
`minimum_overlap` (10) sub-fingerprints and (b) has self-similarity
strictly below 1 at every nonzero offset `k` with `|k| ≤ 360` (the only
perfect self-alignment in the search window is the trivial one), the
default-configured `compare(fp, fp)` returns similarity 1.0, bit error
rate 0.0, best offset 0, matched_segments = length, and
is_duplicate = true.  Both hypotheses are necessary: a fingerprint
shorter than `minimum_overlap` takes the min-overlap early return and
reports is_duplicate = false (see the counterexample), and a perfectly
periodic fingerprint can make the boundary-normalized histogram peak at
the period, so the source reports a nonzero best offset and fewer
matched segments than the length. -/
theorem compare_self_identity (fp : Fingerprint) (hlen : 10 ≤ fp.data.length)
    (hap : ∀ k : ℤ, |k| ≤ 360 → k ≠ 0 →
      calculate_similarity_at_offset fp.data fp.data k < 1) :
    compare defaultComparator fp fp =
      { similarity_score := 1
        best_offset := 0
        matched_segments := fp.data.length
        bit_error_rate := 0
        is_duplicate := true
        coverage_r := 0 } := by
  have hne : fp.data ≠ [] := by
    intro h
    rw [h] at hlen
    simp at hlen
  have hsim : calculate_similarity_at_offset fp.data fp.data 0 = 1 := sim_self_zero _ hne
  have hqf : quick_filter defaultComparator fp.data fp.data = true :=
    quick_filter_self _ _ hne (by norm_num [defaultComparator])
  have h0 : (0 : ℤ) ∈ correlation_offsets defaultComparator.max_alignment_offset
      defaultComparator.alignment_step := by decide
  have halign := find_best_alignment_eq_zero defaultComparator fp.data fp.data
    (by norm_num [defaultComparator]) h0 (by rw [hsim]; norm_num)
    (fun k hk hne2 => by
      rw [hsim]
      exact hap k (by simpa [defaultComparator] using hk) hne2)
  rw [compare_eq_at_zero defaultComparator fp fp
    (by simpa [defaultComparator] using hlen) (by simpa [defaultComparator] using hlen)
    hqf halign]
  rw [hsim, ber_self_zero _ hne, overlap_count_self_zero]
  have hdup : (decide ((defaultComparator).similarity_threshold ≤ (1 : ℚ)) &&
      decide ((0 : ℚ) ≤ (defaultComparator).bit_error_threshold) &&
      decide ((defaultComparator).minimum_overlap ≤ fp.data.length)) = true := by
    have h1 : (defaultComparator).similarity_threshold ≤ (1 : ℚ) := by
      norm_num [defaultComparator]
    have h2 : (0 : ℚ) ≤ (defaultComparator).bit_error_threshold := by
      norm_num [defaultComparator]
    have h3 : (defaultComparator).minimum_overlap ≤ fp.data.length := by
      simpa [defaultComparator] using hlen
    simp [h1, h2, h3]
  rw [hdup]

/-- Concrete 20-entry fingerprint data with pairwise-distinct low-16-bit
hashes (entry `i` has hash `i`). -/
def dataA : List ℕ :=
  [2781675520, 1295777793, 3391488002, 414711811, 622198788, 808517637,
   3141206022, 498204679, 1844183048, 322043913, 738263050, 3724935179,
   3592028172, 600047629, 2067267598, 779157519, 3646554128, 507707409,
   1063387154, 1917583379]

/-- Concrete fingerprint built on `dataA`. -/
def fpA : Fingerprint :=
  { data := dataA, sample_rate := 11025, duration := 5, file_path := "a.wav" }

/-- Witness for C1 at the concrete fingerprint `fpA`. -/
theorem compare_self_identity_witness :
    (compare defaultComparator fpA fpA).is_duplicate = true := by
  have hne : fpA.data ≠ [] := by
    intro h
    exact absurd (congrArg List.length h) (by decide)
  have hsim : calculate_similarity_at_offset fpA.data fpA.data 0 = 1 := sim_self_zero _ hne
  have hb := argmax_bridge fpA.data fpA.data 20 360 (by decide) (by decide)
    (by decide) (by rw [hsim]; norm_num) (by decide)
  have hap : ∀ k : ℤ, |k| ≤ 360 → k ≠ 0 →
      calculate_similarity_at_offset fpA.data fpA.data k < 1 := by
    intro k hk hkne
    rw [← hsim]
    exact hb k hk hkne
  rw [compare_self_identity fpA (by decide) hap]

/-- Single-entry fingerprint, shorter than `minimum_overlap`. -/
def fpShort : Fingerprint :=
  { data := [1], sample_rate := 11025, duration := 1, file_path := "s.wav" }

/-- Counterexample to C1 as stated: for a fingerprint shorter than
`minimum_overlap` (10), `compare(fp, fp)` takes the minimum-overlap early
return, so the self comparison reports similarity 0, bit error rate 1 and
`is_duplicate = false` instead of the claimed identity values. -/
theorem compare_short_self_not_duplicate :
    compare defaultComparator fpShort fpShort = empty_match_result ∧
    (compare defaultComparator fpShort fpShort).is_duplicate = false ∧
    (compare defaultComparator fpShort fpShort).similarity_score = 0 := by
  have h : compare defaultComparator fpShort fpShort = empty_match_result := by
    unfold compare
    rw [if_pos (Or.inl (by simp [fpShort, defaultComparator]))]
  exact ⟨h, by rw [h]; rfl, by rw [h]; rfl⟩

/-! ## Structure of the sequential duplicate-group discovery -/

theorem mem_insert_desc (c : ℕ → ℕ) (x y : ℕ) (l : List ℕ) :
    y ∈ insert_desc c x l ↔ y = x ∨ y ∈ l := by
  induction l with
  | nil => simp [insert_desc]
  | cons q qs ih =>
      rw [insert_desc]
      split
      · simp [List.mem_cons]
      · simp only [List.mem_cons, ih]
        tauto

theorem mem_sort_by_count_desc (c : ℕ → ℕ) (l : List ℕ) (x : ℕ) :
    x ∈ sort_by_count_desc c l ↔ x ∈ l := by
  induction l with
  | nil => simp [sort_by_count_desc]
  | cons q qs ih =>
      unfold sort_by_count_desc at ih ⊢
      rw [List.foldr_cons, mem_insert_desc]
      simp [ih]

theorem find_candidates_lt (files : List FileEntry) (hashThr : ℕ) (query : Fingerprint) :
    ∀ x ∈ find_candidates files hashThr query, x < files.length := by
  intro x hx
  unfold find_candidates at hx
  rw [mem_sort_by_count_desc, List.mem_filter] at hx
  exact List.mem_range.mp hx.1

theorem mark_processed_length (p : List Bool) (g : Finset ℕ) :
    (mark_processed p g).length = p.length := by
  simp [mark_processed]

theorem mark_processed_getD (p : List Bool) (g : Finset ℕ) (x : ℕ) (hx : x < p.length) :
    (mark_processed p g).getD x false = (p.getD x false || decide (x ∈ g)) := by
  unfold mark_processed
  rw [List.getD_eq_getElem?_getD, List.getElem?_map, List.getElem?_range hx]
  rfl

theorem set_true_getD (p : List Bool) (i x : ℕ) (hx : p.getD x false = true) :
    (p.set i true).getD x false = true := by
  by_cases hix : i = x
  · subst hix
    by_cases hlen : i < p.length
    · rw [List.getD_eq_getElem?_getD, List.getElem?_set_self (by simpa using hlen)]
      rfl
    · rw [List.set_eq_of_length_le (by omega)]
      exact hx
  · rw [List.getD_eq_getElem?_getD, List.getElem?_set_ne hix]
    rw [List.getD_eq_getElem?_getD] at hx
    exact hx

/-- Invariant of the sequential group-discovery loop: the processed bitmap
keeps its size, every member of an emitted group is a valid, processed
file id, emitted groups are pairwise disjoint, and every emitted group has
a seed that the comparator matched against every other member. -/
def GroupsInv (cfg : FingerprintComparator) (files : List FileEntry)
    (st : List Bool × List (Finset ℕ)) : Prop :=
  st.1.length = files.length ∧
  (∀ g ∈ st.2, ∀ x ∈ g, x < files.length ∧ st.1.getD x false = true) ∧
  st.2.Pairwise Disjoint ∧
  (∀ g ∈ st.2, ∃ s ∈ g, ∀ m ∈ g, m ≠ s →
    (compare cfg (files.getD s emptyFileEntry).fingerprint
      (files.getD m emptyFileEntry).fingerprint).is_duplicate = true)

theorem dup_step_inv (cfg : FingerprintComparator) (hashThr : ℕ)
    (files : List FileEntry) (st : List Bool × List (Finset ℕ)) (fid : ℕ)
    (hfid : fid < files.length)
    (hinv : GroupsInv cfg files st) :
    GroupsInv cfg files (find_duplicates_for_file cfg hashThr files st fid) := by
  obtain ⟨hlen, hproc, hdisj, hstar⟩ := hinv
  unfold find_duplicates_for_file
  by_cases hp : st.1.getD fid false = true
  · rw [if_pos hp]
    exact ⟨hlen, hproc, hdisj, hstar⟩
  · rw [if_neg hp]
    have hgrp_lt : ∀ x ∈ duplicate_group_of cfg hashThr files st.1 fid,
        x < files.length := by
      intro x hx
      rw [duplicate_group_of, Finset.mem_insert] at hx
      rcases hx with hx | hx
      · subst hx
        exact hfid
      · rw [List.mem_toFinset, List.mem_filter] at hx
        exact find_candidates_lt files hashThr _ x hx.1
    have hgrp_unproc : ∀ x ∈ duplicate_group_of cfg hashThr files st.1 fid,
        st.1.getD x false = false := by
      intro x hx
      rw [duplicate_group_of, Finset.mem_insert] at hx
      rcases hx with hx | hx
      · subst hx
        exact (Bool.not_eq_true _).mp hp
      · rw [List.mem_toFinset, List.mem_filter] at hx
        have hb := hx.2
        rw [Bool.and_assoc, Bool.and_eq_true, Bool.and_eq_true] at hb
        have hmid := hb.2.1
        rw [Bool.not_eq_true'] at hmid
        exact hmid
    have hgrp_star : ∀ m ∈ duplicate_group_of cfg hashThr files st.1 fid, m ≠ fid →
        (compare cfg (files.getD fid emptyFileEntry).fingerprint
          (files.getD m emptyFileEntry).fingerprint).is_duplicate = true := by
      intro m hm hne
      rw [duplicate_group_of, Finset.mem_insert] at hm
      rcases hm with hm | hm
      · exact absurd hm hne
      · rw [List.mem_toFinset, List.mem_filter] at hm
        have hb := hm.2
        rw [Bool.and_assoc, Bool.and_eq_true, Bool.and_eq_true] at hb
        exact hb.2.2
    split
    · -- a new group is emitted and all of its members marked
      refine ⟨by rw [mark_processed_length]; exact hlen, ?_, ?_, ?_⟩
      · intro g hg x hx
        rcases List.mem_append.mp hg with hg | hg
        · obtain ⟨hxlt, hxproc⟩ := hproc g hg x hx
          refine ⟨hxlt, ?_⟩
          rw [mark_processed_getD _ _ _ (by omega), hxproc]
          rfl
        · rw [List.mem_singleton.mp hg] at hx
          refine ⟨hgrp_lt x hx, ?_⟩
          rw [mark_processed_getD _ _ _ (by have := hgrp_lt x hx; omega)]
          simp [hx]
      · rw [List.pairwise_append]
        refine ⟨hdisj, List.pairwise_singleton _ _, ?_⟩
        intro g hg g2 hg2
        rw [List.mem_singleton.mp hg2]
        rw [Finset.disjoint_right]
        intro x hxg hxold
        have hT := (hproc g hg x hxold).2
        rw [hgrp_unproc x hxg] at hT
        exact Bool.false_ne_true hT
      · intro g hg
        rcases List.mem_append.mp hg with hg | hg
        · exact hstar g hg
        · rw [List.mem_singleton.mp hg]
          refine ⟨fid, ?_, hgrp_star⟩
          rw [duplicate_group_of]
          exact Finset.mem_insert_self fid _
    · -- no duplicates found: only the seed is marked processed
      refine ⟨by rw [List.length_set]; exact hlen, ?_, hdisj, hstar⟩
      intro g hg x hx
      obtain ⟨hxlt, hxproc⟩ := hproc g hg x hx
      exact ⟨hxlt, set_true_getD _ _ _ hxproc⟩

theorem fold_inv (cfg : FingerprintComparator) (hashThr : ℕ) (files : List FileEntry) :
    ∀ (l : List ℕ), (∀ fid ∈ l, fid < files.length) →
      ∀ st, GroupsInv cfg files st →
        GroupsInv cfg files (l.foldl (find_duplicates_for_file cfg hashThr files) st) := by
  intro l
  induction l with
  | nil => intro _ st hst; exact hst
  | cons fid l ih =>
      intro hl st hst
      rw [List.foldl_cons]
      exact ih (fun x hx => hl x (List.mem_cons_of_mem _ hx)) _
        (dup_step_inv cfg hashThr files st fid (hl fid (List.mem_cons_self _ _)) hst)

theorem raw_groups_inv (cfg : FingerprintComparator) (hashThr : ℕ)
    (files : List FileEntry) :
    GroupsInv cfg files
      ((List.range files.length).foldl (find_duplicates_for_file cfg hashThr files)
        (List.replicate files.length false, [])) := by
  apply fold_inv
  · intro fid hfid
    exact List.mem_range.mp hfid
  · refine ⟨by simp, ?_, List.Pairwise.nil, ?_⟩
    · intro g hg
      exact absurd hg (List.not_mem_nil g)
    · intro g hg
      exact absurd hg (List.not_mem_nil g)

theorem insert_group_desc_perm (g : DuplicateGroup) (l : List DuplicateGroup) :
    (insert_group_desc g l).Perm (g :: l) := by
  induction l with
  | nil => rw [insert_group_desc]
  | cons x xs ih =>
      rw [insert_group_desc]
      split
      · exact List.Perm.refl _
      · exact (List.Perm.cons x ih).trans (List.Perm.swap g x xs)

theorem sort_groups_desc_perm (l : List DuplicateGroup) :
    (sort_groups_desc l).Perm l := by
  induction l with
  | nil => rw [sort_groups_desc]
  | cons g gs ih =>
      rw [sort_groups_desc]
      exact (insert_group_desc_perm g (sort_groups_desc gs)).trans (List.Perm.cons g ih)

theorem mem_merge_duplicate_groups (cfg : FingerprintComparator)
    (files : List FileEntry) (raw : List (Finset ℕ)) (dg : DuplicateGroup) :
    dg ∈ merge_duplicate_groups cfg files raw ↔
      ∃ g ∈ raw, 1 < g.card ∧
        dg = { file_ids := g.sort (· ≤ ·)
               avg_similarity := group_avg cfg files (g.sort (· ≤ ·)) } := by
  unfold merge_duplicate_groups
  rw [(sort_groups_desc_perm _).mem_iff, List.mem_map]
  constructor
  · rintro ⟨g, hg, rfl⟩
    rw [List.mem_filter] at hg
    exact ⟨g, hg.1, by simpa using hg.2, rfl⟩
  · rintro ⟨g, hg, hcard, rfl⟩
    exact ⟨g, List.mem_filter.mpr ⟨hg, by simpa using hcard⟩, rfl⟩

/-! ## C3 — emitted groups are pairwise disjoint -/

/-- C3: for every file store reachable by a sequence of `add_file` calls
(i.e. for every list of file entries), the groups emitted by the
sequential `find_all_duplicates` are pairwise disjoint: no file id occurs
in two distinct returned groups. -/
theorem find_all_duplicates_disjoint (cfg : FingerprintComparator) (hashThr : ℕ)
    (files : List FileEntry) :
    (find_all_duplicates cfg hashThr files).Pairwise
      (fun g1 g2 => ∀ x ∈ g1.file_ids, x ∉ g2.file_ids) := by
  have hinv := raw_groups_inv cfg hashThr files
  obtain ⟨-, -, hdisj, -⟩ := hinv
  unfold find_all_duplicates merge_duplicate_groups
  have hsym : Symmetric (fun g1 g2 : DuplicateGroup =>
      ∀ x ∈ g1.file_ids, x ∉ g2.file_ids) := by
    intro g1 g2 h x hx2 hx1
    exact h x hx1 hx2
  refine (List.Perm.pairwise_iff (fun hab => hsym hab) (sort_groups_desc_perm _)).mpr ?_
  rw [List.pairwise_map]
  refine List.Pairwise.imp ?_ (hdisj.sublist (List.filter_sublist _))
  intro g1 g2 hd x hx1 hx2
  rw [Finset.mem_sort] at hx1 hx2
  exact Finset.disjoint_left.mp hd hx1 hx2

/-! ## C2 — seed-to-member duplications within emitted groups -/

/-- C2 (amended): in every group emitted by the sequential
`find_all_duplicates` there is a seed member `s` (the file whose scan
formed the group) such that every other member `m` of the group satisfied
`compare(fp_s, fp_m).is_duplicate = true` at formation time.  The claim's
stronger statement — that *every* pair of members is a verified duplicate
pair — fails: candidate-to-candidate pairs are never compared (see the
counterexample). -/
theorem find_all_duplicates_star (cfg : FingerprintComparator) (hashThr : ℕ)
    (files : List FileEntry) :
    ∀ g ∈ find_all_duplicates cfg hashThr files, ∃ s ∈ g.file_ids,
      ∀ m ∈ g.file_ids, m ≠ s →
        (compare cfg (files.getD s emptyFileEntry).fingerprint
          (files.getD m emptyFileEntry).fingerprint).is_duplicate = true := by
  intro g hg
  have hinv := raw_groups_inv cfg hashThr files
  obtain ⟨-, -, -, hstar⟩ := hinv
  rw [find_all_duplicates, mem_merge_duplicate_groups] at hg
  obtain ⟨s, hs, hcard, rfl⟩ := hg
  obtain ⟨seed, hseed, hdup⟩ := hstar s hs
  refine ⟨seed, ?_, ?_⟩
  · simpa [Finset.mem_sort] using hseed
  · intro m hm hne
    rw [Finset.mem_sort] at hm
    exact hdup m hm hne

/-! ## C2 — a concrete index whose emitted group has an unverified pair -/

/-- `dataA` with three high bits (16..18) flipped in every entry: a
verified duplicate of `fpA`, hash-identical to it. -/
def dataB : List ℕ := dataA.map (fun v => v ^^^ 458752)

/-- `dataA` with three other high bits (19..21) flipped in every entry. -/
def dataC : List ℕ := dataA.map (fun v => v ^^^ 3670016)

/-- Fingerprint on `dataB`. -/
def fpB : Fingerprint :=
  { data := dataB, sample_rate := 11025, duration := 5, file_path := "b.wav" }

/-- Fingerprint on `dataC`. -/
def fpC : Fingerprint :=
  { data := dataC, sample_rate := 11025, duration := 5, file_path := "c.wav" }

/-- A three-file index store: A, B and C differ pairwise only in high
bits, so they share all 16-bit hashes. -/
def files3 : List FileEntry :=
  [{ file_path := "a.wav", fingerprint := fpA },
   { file_path := "b.wav", fingerprint := fpB },
   { file_path := "c.wav", fingerprint := fpC }]

theorem quick_filter_of_hash_eq (cfg : FingerprintComparator) (d1 d2 : List ℕ)
    (hh : extract_hash_subset d1 = extract_hash_subset d2) (hne : d1 ≠ [])
    (hth : cfg.similarity_threshold * (6 / 10) ≤ 1) :
    quick_filter cfg d1 d2 = true := by
  unfold quick_filter
  rw [hh, calculate_hash_overlap_self _ (by
    rw [← hh]
    simp [extract_hash_subset, hne])]
  exact decide_eq_true hth

/-- Full evaluation of the default-configured `compare` on a concrete pair
whose bit counts at offset zero are known and whose similarity is
strictly maximal there. -/
theorem compare_concrete_at_zero (fp1 fp2 : Fingerprint) (m e c : ℕ)
    (hl1 : defaultComparator.minimum_overlap ≤ fp1.data.length)
    (hl2 : defaultComparator.minimum_overlap ≤ fp2.data.length)
    (hne : fp1.data ≠ [])
    (hhash : extract_hash_subset fp1.data = extract_hash_subset fp2.data)
    (hc : overlap_count fp1.data.length fp2.data.length 0 = c)
    (hcne : c ≠ 0)
    (hm : aligned_sum count_matching_bits fp1.data fp2.data 0 = m)
    (he : aligned_sum bit_errors fp1.data fp2.data 0 = e)
    (hmpos : 0 < m)
    (hchk : ∀ k ∈ Finset.Icc (-((fp1.data.length + fp2.data.length : ℕ) : ℤ))
        ((fp1.data.length + fp2.data.length : ℕ) : ℤ), k ≠ 0 →
      (if overlap_count fp1.data.length fp2.data.length k = 0
        then 0 < aligned_sum count_matching_bits fp1.data fp2.data 0
        else aligned_sum count_matching_bits fp1.data fp2.data k *
            overlap_count fp1.data.length fp2.data.length 0 <
          aligned_sum count_matching_bits fp1.data fp2.data 0 *
            overlap_count fp1.data.length fp2.data.length k)) :
    compare defaultComparator fp1 fp2 =
      { similarity_score := (m : ℚ) / (32 * (c : ℚ))
        best_offset := 0
        matched_segments := c
        bit_error_rate := (e : ℚ) / (32 * (c : ℚ))
        is_duplicate :=
          decide (defaultComparator.similarity_threshold ≤ (m : ℚ) / (32 * (c : ℚ))) &&
          decide ((e : ℚ) / (32 * (c : ℚ)) ≤ defaultComparator.bit_error_threshold) &&
          decide (defaultComparator.minimum_overlap ≤ c)
        coverage_r := 0 } := by
  have hsim : calculate_similarity_at_offset fp1.data fp2.data 0 = (m : ℚ) / (32 * (c : ℚ)) := by
    unfold calculate_similarity_at_offset
    rw [hc, hm, if_neg hcne]
  have hber : calculate_bit_error_rate fp1.data fp2.data 0 = (e : ℚ) / (32 * (c : ℚ)) := by
    unfold calculate_bit_error_rate
    rw [hc, he, if_neg hcne]
  have hpos : 0 < calculate_similarity_at_offset fp1.data fp2.data 0 := by
    rw [hsim]
    have h1 : (0 : ℚ) < (m : ℚ) := by exact_mod_cast hmpos
    have h2 : (0 : ℚ) < (c : ℚ) := by exact_mod_cast Nat.pos_of_ne_zero hcne
    positivity
  have hqf := quick_filter_of_hash_eq defaultComparator fp1.data fp2.data hhash hne
    (by norm_num [defaultComparator])
  have hb := argmax_bridge fp1.data fp2.data (fp1.data.length + fp2.data.length) 360
    (Nat.le_add_right _ _) (Nat.le_add_left _ _) (by rw [hc]; exact hcne) hpos hchk
  have halign := find_best_alignment_eq_zero defaultComparator fp1.data fp2.data
    (by norm_num [defaultComparator]) (by decide) hpos
    (fun k hk hne2 => hb k (by simpa [defaultComparator] using hk) hne2)
  rw [compare_eq_at_zero defaultComparator fp1 fp2 hl1 hl2 hqf halign]
  rw [hsim, hber, hc]

/-- `compare(A, B)` is a verified duplicate pair: 3 differing bits per
entry, similarity 29/32, bit error rate 3/32. -/
theorem compare_AB_dup : (compare defaultComparator fpA fpB).is_duplicate = true := by
  rw [compare_concrete_at_zero fpA fpB 580 60 20 (by decide) (by decide) (by decide)
    (by decide) (by decide) (by decide) (by decide) (by decide) (by decide) (by decide)]
  have h1 : defaultComparator.similarity_threshold ≤ (580 : ℚ) / (32 * (20 : ℚ)) := by
    norm_num [defaultComparator]
  have h2 : (60 : ℚ) / (32 * (20 : ℚ)) ≤ defaultComparator.bit_error_threshold := by
    norm_num [defaultComparator]
  have h3 : defaultComparator.minimum_overlap ≤ 20 := by decide
  simp [h1, h2, h3]

/-- `compare(A, C)` is a verified duplicate pair as well. -/
theorem compare_AC_dup : (compare defaultComparator fpA fpC).is_duplicate = true := by
  rw [compare_concrete_at_zero fpA fpC 580 60 20 (by decide) (by decide) (by decide)
    (by decide) (by decide) (by decide) (by decide) (by decide) (by decide) (by decide)]
  have h1 : defaultComparator.similarity_threshold ≤ (580 : ℚ) / (32 * (20 : ℚ)) := by
    norm_num [defaultComparator]
  have h2 : (60 : ℚ) / (32 * (20 : ℚ)) ≤ defaultComparator.bit_error_threshold := by
    norm_num [defaultComparator]
  have h3 : defaultComparator.minimum_overlap ≤ 20 := by decide
  simp [h1, h2, h3]

/-- `compare(B, C)` is not a duplicate pair: 6 differing bits per entry,
similarity 13/16 < 0.85 and bit error rate 3/16 > 0.15. -/
theorem compare_BC_not_dup : (compare defaultComparator fpB fpC).is_duplicate = false := by
  rw [compare_concrete_at_zero fpB fpC 520 120 20 (by decide) (by decide) (by decide)
    (by decide) (by decide) (by decide) (by decide) (by decide) (by decide) (by decide)]
  have h1 : ¬ defaultComparator.similarity_threshold ≤ (520 : ℚ) / (32 * (20 : ℚ)) := by
    norm_num [defaultComparator]
  simp [h1]

theorem group_of_seed0 :
    duplicate_group_of defaultComparator DEFAULT_HASH_THRESHOLD files3
      (List.replicate 3 false) 0 = ({0, 1, 2} : Finset ℕ) := by
  unfold duplicate_group_of
  have hq : (files3.getD 0 emptyFileEntry).fingerprint = fpA := rfl
  rw [hq]
  have hcand : find_candidates files3 DEFAULT_HASH_THRESHOLD fpA = [2, 1, 0] := by decide
  rw [hcand]
  have hc2 : (files3.getD 2 emptyFileEntry).fingerprint = fpC := rfl
  have hc1 : (files3.getD 1 emptyFileEntry).fingerprint = fpB := rfl
  have h2 : (decide ((2 : ℕ) ≠ 0) && !((List.replicate 3 false).getD 2 false) &&
      (compare defaultComparator fpA
        (files3.getD 2 emptyFileEntry).fingerprint).is_duplicate) = true := by
    rw [hc2, compare_AC_dup]
    rfl
  have h1 : (decide ((1 : ℕ) ≠ 0) && !((List.replicate 3 false).getD 1 false) &&
      (compare defaultComparator fpA
        (files3.getD 1 emptyFileEntry).fingerprint).is_duplicate) = true := by
    rw [hc1, compare_AB_dup]
    rfl
  have h0 : (decide ((0 : ℕ) ≠ 0) && !((List.replicate 3 false).getD 0 false) &&
      (compare defaultComparator fpA
        (files3.getD 0 emptyFileEntry).fingerprint).is_duplicate) = false := rfl
  simp only [List.filter_cons, List.filter_nil, h2, h1, h0]
  simp only [if_true, if_false, reduceIte]
  decide

theorem dup_step0 :
    find_duplicates_for_file defaultComparator DEFAULT_HASH_THRESHOLD files3
      (List.replicate 3 false, []) 0 =
      ([true, true, true], [({0, 1, 2} : Finset ℕ)]) := by
  unfold find_duplicates_for_file
  rw [if_neg (by decide)]
  rw [group_of_seed0]
  rw [if_pos (by decide : 1 < ({0, 1, 2} : Finset ℕ).card)]
  refine Prod.ext ?_ ?_ <;> decide

theorem dup_step_skip (groups : List (Finset ℕ)) (fid : ℕ)
    (hp : ([true, true, true] : List Bool).getD fid false = true) :
    find_duplicates_for_file defaultComparator DEFAULT_HASH_THRESHOLD files3
      ([true, true, true], groups) fid = ([true, true, true], groups) := by
  unfold find_duplicates_for_file
  rw [if_pos hp]

theorem raw_groups_files3 :
    find_all_duplicates_raw defaultComparator DEFAULT_HASH_THRESHOLD files3 =
      [({0, 1, 2} : Finset ℕ)] := by
  unfold find_all_duplicates_raw
  have hr : List.range files3.length = [0, 1, 2] := by decide
  rw [hr]
  simp only [List.foldl_cons, List.foldl_nil]
  rw [show (List.replicate files3.length false, ([] : List (Finset ℕ))) =
    (List.replicate 3 false, ([] : List (Finset ℕ))) from rfl]
  rw [dup_step0, dup_step_skip _ 1 (by decide), dup_step_skip _ 2 (by decide)]

/-- Counterexample to C2 as stated: on the three-file index `files3` the
sequential `find_all_duplicates` emits the single group `{0, 1, 2}`
(seeded at file 0, which matched both candidates), yet its member pair
`(1, 2)` was never compared and in fact fails `compare.is_duplicate`. -/
theorem find_all_duplicates_files3_pair_not_dup :
    (find_all_duplicates defaultComparator DEFAULT_HASH_THRESHOLD files3).map
      DuplicateGroup.file_ids = [[0, 1, 2]] ∧
    (compare defaultComparator fpB fpC).is_duplicate = false := by
  constructor
  · unfold find_all_duplicates
    rw [raw_groups_files3]
    unfold merge_duplicate_groups
    rw [List.filter_cons, List.filter_nil]
    rw [if_pos (by decide : (decide (1 < ({0, 1, 2} : Finset ℕ).card)) = true)]
    simp only [List.map_cons, List.map_nil]
    rw [sort_groups_desc, sort_groups_desc, insert_group_desc]
    simp only [List.map_cons, List.map_nil]
    have hsort : Finset.sort (fun x1 x2 => x1 ≤ x2) ({0, 1, 2} : Finset ℕ) = [0, 1, 2] := by
      have h03 : ({0, 1, 2} : Finset ℕ) = Finset.range 3 := by decide
      rw [h03, Finset.sort_range]
      rfl
    rw [hsort]
  · exact compare_BC_not_dup

/-- Witness for C2 (amended) at the concrete three-file index. -/
theorem find_all_duplicates_star_witness :
    ∃ s ∈ ((find_all_duplicates defaultComparator DEFAULT_HASH_THRESHOLD files3).getD 0
      { file_ids := [], avg_similarity := 0 }).file_ids,
      ∀ m ∈ ((find_all_duplicates defaultComparator DEFAULT_HASH_THRESHOLD files3).getD 0
        { file_ids := [], avg_similarity := 0 }).file_ids, m ≠ s →
        (compare defaultComparator (files3.getD s emptyFileEntry).fingerprint
          (files3.getD m emptyFileEntry).fingerprint).is_duplicate = true := by
  apply find_all_duplicates_star
  have hlen : (find_all_duplicates defaultComparator DEFAULT_HASH_THRESHOLD files3).length = 1 := by
    have hmap := congrArg List.length find_all_duplicates_files3_pair_not_dup.1
    simpa using hmap
  have hne : find_all_duplicates defaultComparator DEFAULT_HASH_THRESHOLD files3 ≠ [] := by
    intro h
    rw [h] at hlen
    simp at hlen
  obtain ⟨g, t, hgt⟩ := List.exists_cons_of_ne_nil hne
  rw [hgt]
  exact List.mem_cons_self _ _

/-! ## C8 — resampling round trip -/

theorem resample_sinc_length (input : List ℚ) (a b : ℕ)
    (hne : input ≠ []) (hab : a ≠ b) :
    (resample_sinc input a b).length = input.length * b / a := by
  unfold resample_sinc
  rw [if_neg (by simp [hne, hab])]
  simp only [List.length_map, List.length_range]
  rw [show (input.length : ℚ) * ((b : ℚ) / (a : ℚ)) =
    ((input.length * b : ℕ) : ℚ) / (a : ℚ) by push_cast; ring]
  rw [Nat.floor_div_nat, Nat.floor_natCast]

/-- C8 (amended): for every non-empty sample vector and positive rates
with `r1 ≤ r2` (up-sample first), the double resample
`resample(resample(x, r1, r2), r2, r1)` preserves the length within one
sample: the result length lies in `[len - 1, len]`.  For `r1 > r2` the
claim fails — see the counterexample, where a 4:1 down-up round trip
shrinks 7 samples to 4. -/
theorem resample_round_trip (x : List ℚ) (r1 r2 : ℕ)
    (hx : x ≠ []) (h1 : 0 < r1) (hle : r1 ≤ r2) :
    x.length - 1 ≤ (resample_sinc (resample_sinc x r1 r2) r2 r1).length ∧
    (resample_sinc (resample_sinc x r1 r2) r2 r1).length ≤ x.length := by
  by_cases heq : r1 = r2
  · subst heq
    have hid : resample_sinc x r1 r1 = x := by
      unfold resample_sinc
      rw [if_pos (Or.inr rfl)]
    rw [hid, hid]
    omega
  · have h2 : 0 < r2 := lt_of_lt_of_le h1 hle
    have hNpos : 0 < x.length := List.length_pos.mpr hx
    have hM : (resample_sinc x r1 r2).length = x.length * r2 / r1 :=
      resample_sinc_length x r1 r2 hx heq
    have hMN : x.length ≤ x.length * r2 / r1 := by
      calc x.length = x.length * r1 / r1 := by rw [Nat.mul_div_cancel _ h1]
        _ ≤ x.length * r2 / r1 := Nat.div_le_div_right (Nat.mul_le_mul_left _ hle)
    have hyne : resample_sinc x r1 r2 ≠ [] := by
      intro h
      rw [h] at hM
      simp at hM
      omega
    have hM2 : (resample_sinc (resample_sinc x r1 r2) r2 r1).length =
        (x.length * r2 / r1) * r1 / r2 := by
      rw [resample_sinc_length _ r2 r1 hyne (Ne.symm heq), hM]
    rw [hM2]
    constructor
    · rw [Nat.le_div_iff_mul_le h2]
      have hd := Nat.div_add_mod (x.length * r2) r1
      have hmod : x.length * r2 % r1 < r1 := Nat.mod_lt _ h1
      have hexp : (x.length - 1) * r2 = x.length * r2 - r2 := by
        rw [Nat.sub_mul, one_mul]
      have hr2 : r2 ≤ x.length * r2 := Nat.le_mul_of_pos_left r2 hNpos
      have hle' : (r1 : ℤ) ≤ (r2 : ℤ) := by exact_mod_cast hle
      rw [hexp]
      zify [hr2]
      zify at hd hmod
      linarith
    · calc (x.length * r2 / r1) * r1 / r2 ≤ x.length * r2 / r2 :=
          Nat.div_le_div_right (Nat.div_mul_le_self _ _)
        _ = x.length := Nat.mul_div_cancel _ h2

/-- Seven constant samples. -/
def x7 : List ℚ := List.replicate 7 1

/-- Counterexample to C8 as stated: for positive rates `r1 = 4`,
`r2 = 1` and a non-empty input of 7 samples, the round trip produces 4
samples — off by 3, not within one sample. -/
theorem resample_round_trip_counterexample :
    (resample_sinc (resample_sinc x7 4 1) 1 4).length + 1 < x7.length ∧
    x7.length = 7 ∧
    (resample_sinc (resample_sinc x7 4 1) 1 4).length = 4 := by
  have hx : x7 ≠ [] := by
    intro h
    have hlen := congrArg List.length h
    simp [x7] at hlen
  have hM : (resample_sinc x7 4 1).length = 1 := by
    rw [resample_sinc_length x7 4 1 hx (by norm_num)]
    simp [x7]
  have hyne : resample_sinc x7 4 1 ≠ [] := by
    intro h
    rw [h] at hM
    simp at hM
  have hM2 : (resample_sinc (resample_sinc x7 4 1) 1 4).length = 4 := by
    rw [resample_sinc_length _ 1 4 hyne (by norm_num), hM]
  refine ⟨?_, by simp [x7], hM2⟩
  rw [hM2]
  simp [x7]

/-- Witness for C8 (amended) with `r1 = 2 ≤ 3 = r2`. -/
theorem resample_round_trip_witness :
    ([(1 : ℚ), 2] : List ℚ).length - 1 ≤
      (resample_sinc (resample_sinc [(1 : ℚ), 2] 2 3) 3 2).length ∧
    (resample_sinc (resample_sinc [(1 : ℚ), 2] 2 3) 3 2).length ≤
      ([(1 : ℚ), 2] : List ℚ).length :=
  resample_round_trip [(1 : ℚ), 2] 2 3 (by simp) (by norm_num) (by norm_num)

/-! ## C9 — pure-silence trimming -/

/-- C9 (amended): whenever the silence scan finds no non-silent chunk,
`trim_silence` outputs `min(⌊preserve_padding_ms * rate / 1000⌋, N)` zero
samples — the padding worth of zeros, clamped to the input length — and
preserves `original_duration`. -/
theorem trim_silence_pure (cfg : PreprocessConfig) (input : AudioData)
    (hsil : find_first_non_silent input.samples input.sample_rate
        cfg.silence_threshold_db = none ∨
      find_last_non_silent input.samples input.sample_rate
        cfg.silence_threshold_db = none) :
    (trim_silence cfg input).samples =
      List.replicate (min (cfg.preserve_padding_ms * input.sample_rate / 1000).toNat
        input.samples.length) 0 ∧
    (trim_silence cfg input).original_duration = input.original_duration := by
  unfold trim_silence
  by_cases hemp : input.samples = []
  · rw [if_pos hemp]
    rw [hemp]
    constructor
    · simp
    · rfl
  · rw [if_neg hemp]
    rcases hsil with h | h
    · rw [h]
      exact ⟨rfl, rfl⟩
    · cases hf : find_first_non_silent input.samples input.sample_rate
          cfg.silence_threshold_db with
      | none => exact ⟨rfl, rfl⟩
      | some a => rw [h]; exact ⟨rfl, rfl⟩

theorem getD_replicate_zero (n i : ℕ) :
    (List.replicate n (0 : ℚ)).getD i 0 = 0 := by
  by_cases hi : i < n
  · rw [List.getD_eq_getElem?_getD, List.getElem?_replicate, if_pos hi]
    rfl
  · rw [List.getD_eq_getElem?_getD, List.getElem?_replicate, if_neg hi]
    rfl

theorem calculate_energy_zero (n : ℕ) (s cnt : ℤ) :
    calculate_energy (List.replicate n 0) s cnt = 0 := by
  unfold calculate_energy
  split
  · rfl
  · simp only [getD_replicate_zero]
    simp

theorem detect_silence_zero (n : ℕ) (s cnt : ℤ) (thr : ℚ)
    (hthr : (-100 : ℝ) < (thr : ℝ)) :
    detect_silence_segment (List.replicate n 0) s cnt thr = true := by
  unfold detect_silence_segment
  split
  · rfl
  · simp only [calculate_energy_zero]
    have hdb : linear_to_db 0 = (-100 : ℝ) := by
      unfold linear_to_db
      rw [if_pos le_rfl]
    rw [hdb]
    exact decide_eq_true hthr

theorem silent_first_none (n : ℕ) (rate : ℤ) (thr : ℚ)
    (hthr : (-100 : ℝ) < (thr : ℝ)) :
    find_first_non_silent (List.replicate n 0) rate thr = none := by
  unfold find_first_non_silent
  split
  · rfl
  · have haux : ∀ (fuel i : ℕ), n - i ≤ fuel →
        find_first_aux (List.replicate n (0 : ℚ)) rate thr i = none := by
      intro fuel
      induction fuel with
      | zero =>
          intro i hi
          rw [find_first_aux, if_pos (by simp; omega)]
      | succ f ih =>
          intro i hi
          rw [find_first_aux]
          by_cases hlen : (List.replicate n (0 : ℚ)).length ≤ i
          · rw [if_pos hlen]
          · rw [if_neg hlen]
            rw [detect_silence_zero n ((i : ℕ) : ℤ) _ thr hthr]
            have hchunk : 1 ≤ chunk_size rate := le_max_left 1 _
            simp only [if_true]
            refine ih (i + chunk_size rate) ?_
            simp only [List.length_replicate] at hlen
            omega
    exact haux n 0 (by omega)

/-- Three zero samples at 100 Hz: 30 ms of pure silence. -/
def silentAudio : AudioData :=
  { samples := List.replicate 3 0, sample_rate := 100, channels := 1, frames := 3,
    duration := 3 / 100, original_duration := 3 / 100 }

/-- Counterexample to C9 as stated: with the default 100 ms padding at
100 Hz the claimed output would be `⌊100 * 100 / 1000⌋ = 10` zeros, but on
a 3-sample pure-silence input the source clamps to
`min(padding, size) = 3` zeros. -/
theorem trim_silence_clamps_padding :
    (trim_silence defaultPreprocessConfig silentAudio).samples = List.replicate 3 0 ∧
    (defaultPreprocessConfig.preserve_padding_ms * silentAudio.sample_rate / 1000).toNat
      = 10 ∧
    (trim_silence defaultPreprocessConfig silentAudio).samples.length = 3 ∧
    (3 : ℕ) ≠ 10 ∧
    (trim_silence defaultPreprocessConfig silentAudio).original_duration =
      silentAudio.original_duration := by
  have h := trim_silence_pure defaultPreprocessConfig silentAudio
    (Or.inl (silent_first_none 3 100 (-55) (by norm_num)))
  have hmin : min ((defaultPreprocessConfig.preserve_padding_ms *
      silentAudio.sample_rate / 1000)).toNat silentAudio.samples.length = 3 := by decide
  refine ⟨?_, by decide, ?_, by decide, h.2⟩
  · rw [h.1, hmin]
  · rw [h.1, hmin]
    simp

/-- Witness for C9 (amended) at the concrete pure-silence input. -/
theorem trim_silence_pure_witness :
    (trim_silence defaultPreprocessConfig silentAudio).samples =
      List.replicate (min (defaultPreprocessConfig.preserve_padding_ms *
        silentAudio.sample_rate / 1000).toNat silentAudio.samples.length) 0 :=
  (trim_silence_pure defaultPreprocessConfig silentAudio
    (Or.inl (silent_first_none 3 100 (-55) (by norm_num)))).1

end AudioDuplicates
